import Mathlib

/-!
# http-metrics: the timing state machine of `metric.go` and the orchestrator of `result.go`

Shallow embedding of the Go package `httpmetrics`.

* `time.Duration` is a signed 64-bit count of nanoseconds; it is embedded as an `Int`.
* `time.Time` is embedded as the (unbounded) number of nanoseconds that separate the instant
  from the zero instant of Go (January 1, year 1, 00:00:00 UTC), so `IsZero` is `t = 0`.
  Wall clock and monotonic clock are taken to agree.
* `Time.Sub` saturates at the largest and the smallest `Duration`, as the Go library does.
* every hook of `withClientTrace` reads `time.Now()` once; the reading is an argument `now`.
-/

namespace HttpMetrics

/-! ## The time library -/

/-! A `time.Duration` is an `Int` (nanoseconds) and a `time.Time` is an `Int` (nanoseconds
since the zero instant, `0` being the zero, unset `Time`): in the definitions below the
arguments named `t`, `u`, `now` and the lower-case fields of `Metric` are instants, the
upper-case fields of `Metric` are durations. -/

/-- The constant `time.Millisecond`. -/
def Millisecond : Int := 1000000

/-- The largest `Duration`, `1<<63 - 1`. -/
def maxDuration : Int := 9223372036854775807

/-- The smallest `Duration`, `-1 << 63`. -/
def minDuration : Int := -9223372036854775808

/-- Go `Time.IsZero`. -/
def Time.IsZero (t : Int) : Bool := decide (t = 0)

/-- Go `Time.Sub`: the duration `t - u`, saturated to the range of `Duration`. -/
def Time.Sub (t u : Int) : Int :=
  if maxDuration < t - u then maxDuration
  else if t - u < minDuration then minDuration
  else t - u

/-! ## The data model (`metric.go`, lines 14-40) -/

/-- The struct `Metric`; the default values are the zero value of Go. -/
structure Metric where
  DNSLookup : Int := 0
  TCPConnection : Int := 0
  TLSHandshake : Int := 0
  ServerProcessing : Int := 0
  ContentTransfer : Int := 0
  NameLookup : Int := 0
  Connect : Int := 0
  Pretransfer : Int := 0
  StartTransfer : Int := 0
  Total : Int := 0
  dnsStart : Int := 0
  dnsDone : Int := 0
  tcpStart : Int := 0
  tcpDone : Int := 0
  tlsStart : Int := 0
  tlsDone : Int := 0
  serverStart : Int := 0
  serverDone : Int := 0
  transferStart : Int := 0
  transferDone : Int := 0
  isTLS : Bool := false
  isReused : Bool := false

/-- The zero value `var m Metric`: a Metric that has observed nothing. -/
def Metric.fresh : Metric := {}

/-! ## The measurement accessor (`metric.go`, lines 42-56) -/

/-- The map literal of `durations()`, as the list of its entries in the order of the source. -/
def Metric.durations (m : Metric) : List (String × Int) :=
  [ ("DNSLookup", m.DNSLookup),
    ("TCPConnection", m.TCPConnection),
    ("TLSHandshake", m.TLSHandshake),
    ("ServerProcessing", m.ServerProcessing),
    ("ContentTransfer", m.ContentTransfer),
    ("NameLookup", m.NameLookup),
    ("Connect", m.Connect),
    ("Pretransfer", m.Connect),
    ("StartTransfer", m.StartTransfer),
    ("Total", m.Total) ]

/-- Indexing a Go map given by its entries: `d[k]`, with `none` for an absent key. -/
def mapGet (d : List (String × Int)) (k : String) : Option Int :=
  (d.find? (fun e => e.1 == k)).map (fun e => e.2)

/-- The keys of a Go map given by its entries. -/
def mapKeys (d : List (String × Int)) : List String :=
  d.map (fun e => e.1)

/-- The ten names of the measurements. -/
def tenNames : List String :=
  ["DNSLookup", "TCPConnection", "TLSHandshake", "ServerProcessing", "ContentTransfer",
   "NameLookup", "Connect", "Pretransfer", "StartTransfer", "Total"]

/-! ## Finalization (`metric.go`, lines 92-99) -/

/-- The method `End`. -/
def Metric.End (m : Metric) (t : Int) : Metric :=
  let m := { m with transferDone := t }
  if Time.IsZero m.dnsStart then m
  else
    let m := { m with ContentTransfer := Time.Sub m.transferDone m.transferStart }
    { m with Total := Time.Sub m.transferDone m.dnsStart }

/-! ## The hooks of `withClientTrace` (`metric.go`, lines 101-177) -/

namespace withClientTrace

/-- Hook `DNSStart`. -/
def DNSStart (m : Metric) (now : Int) : Metric :=
  { m with dnsStart := now }

/-- Hook `DNSDone`. -/
def DNSDone (m : Metric) (now : Int) : Metric :=
  let m := { m with dnsDone := now }
  let m := { m with DNSLookup := Time.Sub m.dnsDone m.dnsStart }
  { m with NameLookup := Time.Sub m.dnsDone m.dnsStart }

/-- Hook `ConnectStart`. -/
def ConnectStart (m : Metric) (now : Int) : Metric :=
  let m := { m with tcpStart := now }
  if Time.IsZero m.dnsStart then
    let m := { m with dnsStart := m.tcpStart }
    { m with dnsDone := m.tcpStart }
  else m

/-- Hook `ConnectDone`. -/
def ConnectDone (m : Metric) (now : Int) : Metric :=
  let m := { m with tcpDone := now }
  let m := { m with TCPConnection := Time.Sub m.tcpDone m.tcpStart }
  { m with Connect := Time.Sub m.tcpDone m.dnsStart }

/-- Hook `TLSHandshakeStart`. -/
def TLSHandshakeStart (m : Metric) (now : Int) : Metric :=
  let m := { m with isTLS := true }
  { m with tlsStart := now }

/-- Hook `TLSHandshakeDone`. -/
def TLSHandshakeDone (m : Metric) (now : Int) : Metric :=
  let m := { m with tlsDone := now }
  let m := { m with TLSHandshake := Time.Sub m.tlsDone m.tlsStart }
  { m with Pretransfer := Time.Sub m.tlsDone m.dnsStart }

/-- Hook `GotConn`; `reused` is the field `Reused` of the `GotConnInfo`. -/
def GotConn (m : Metric) (reused : Bool) : Metric :=
  if reused then { m with isReused := true } else m

/-- Hook `WroteRequest`. -/
def WroteRequest (m : Metric) (now : Int) : Metric :=
  let m := { m with serverStart := now }
  let m :=
    if Time.IsZero m.dnsStart && Time.IsZero m.tcpStart then
      let now := m.serverStart
      { m with dnsStart := now, dnsDone := now, tcpStart := now, tcpDone := now }
    else m
  let m :=
    if m.isReused then
      let now := m.serverStart
      { m with dnsStart := now, dnsDone := now, tcpStart := now, tcpDone := now,
               tlsStart := now, tlsDone := now }
    else m
  if m.isTLS then m
  else
    let m := { m with TLSHandshake := Time.Sub m.tcpDone m.tcpDone }
    { m with Pretransfer := m.Connect }

/-- Hook `GotFirstResponseByte`. -/
def GotFirstResponseByte (m : Metric) (now : Int) : Metric :=
  let m := { m with serverDone := now }
  let m := { m with ServerProcessing := Time.Sub m.serverDone m.serverStart }
  let m := { m with StartTransfer := Time.Sub m.serverDone m.dnsStart }
  { m with transferStart := m.serverDone }

end withClientTrace

/-! ## Event sequences -/

/-- One invocation of a hook installed by `withClientTrace`, with the clock reading it takes. -/
inductive TraceEvent where
  | DNSStart (now : Int)
  | DNSDone (now : Int)
  | ConnectStart (now : Int)
  | ConnectDone (now : Int)
  | TLSHandshakeStart (now : Int)
  | TLSHandshakeDone (now : Int)
  | GotConn (reused : Bool)
  | WroteRequest (now : Int)
  | GotFirstResponseByte (now : Int)
deriving DecidableEq, Repr

/-- The effect of one hook invocation on the Metric the hooks are bound to. -/
def TraceEvent.apply (m : Metric) : TraceEvent → Metric
  | .DNSStart now => withClientTrace.DNSStart m now
  | .DNSDone now => withClientTrace.DNSDone m now
  | .ConnectStart now => withClientTrace.ConnectStart m now
  | .ConnectDone now => withClientTrace.ConnectDone m now
  | .TLSHandshakeStart now => withClientTrace.TLSHandshakeStart m now
  | .TLSHandshakeDone now => withClientTrace.TLSHandshakeDone m now
  | .GotConn reused => withClientTrace.GotConn m reused
  | .WroteRequest now => withClientTrace.WroteRequest m now
  | .GotFirstResponseByte now => withClientTrace.GotFirstResponseByte m now

/-- A sequence of hook invocations, delivered one after the other. -/
def trace (m : Metric) (evs : List TraceEvent) : Metric :=
  evs.foldl TraceEvent.apply m

/-- An operation on a Metric: a hook invocation, or a call of `End`. -/
inductive Op where
  | hook (e : TraceEvent)
  | End (t : Int)
deriving DecidableEq, Repr

/-- The effect of one operation. -/
def Op.apply (m : Metric) : Op → Metric
  | .hook e => e.apply m
  | .End t => m.End t

/-- A sequence of operations, performed one after the other. -/
def run (m : Metric) (ops : List Op) : Metric :=
  ops.foldl Op.apply m

/-! ## The three normal-order sequences of the tests -/

/-- A count of milliseconds as a `Duration` (`n * time.Millisecond`). -/
def ms (n : Int) : Int := n * Millisecond

/-- The full TLS sequence, in normal order, followed by `End` (`TestHTTPS`). -/
def tlsSequence (t0 t1 t2 t3 t4 t5 t6 t7 t8 : Int) : List Op :=
  [ .hook (.DNSStart t0), .hook (.DNSDone t1), .hook (.ConnectStart t2), .hook (.ConnectDone t3),
    .hook (.TLSHandshakeStart t4), .hook (.TLSHandshakeDone t5), .hook (.GotConn false),
    .hook (.WroteRequest t6), .hook (.GotFirstResponseByte t7), .End t8 ]

/-- The complete plaintext sequence, in normal order, followed by `End` (`TestHTTP`). -/
def plainSequence (t0 t1 t2 t3 t6 t7 t8 : Int) : List Op :=
  [ .hook (.DNSStart t0), .hook (.DNSDone t1), .hook (.ConnectStart t2), .hook (.ConnectDone t3),
    .hook (.GotConn false), .hook (.WroteRequest t6), .hook (.GotFirstResponseByte t7), .End t8 ]

/-- The sequence of a request on a reused connection, followed by `End` (`TestKeepAlive`). -/
def reusedSequence (t6 t7 t8 : Int) : List Op :=
  [ .hook (.GotConn true), .hook (.WroteRequest t6), .hook (.GotFirstResponseByte t7), .End t8 ]

/-- The Metric after the full TLS sequence, started fresh. -/
def tlsRun (t0 t1 t2 t3 t4 t5 t6 t7 t8 : Int) : Metric :=
  run Metric.fresh (tlsSequence t0 t1 t2 t3 t4 t5 t6 t7 t8)

/-- The Metric after the complete plaintext sequence, started fresh. -/
def plainRun (t0 t1 t2 t3 t6 t7 t8 : Int) : Metric :=
  run Metric.fresh (plainSequence t0 t1 t2 t3 t6 t7 t8)

/-- The Metric after the sequence of a reused connection, started fresh. -/
def reusedRun (t6 t7 t8 : Int) : Metric :=
  run Metric.fresh (reusedSequence t6 t7 t8)

/-- The Metric after the hooks `pre` and then `WroteRequest`, started fresh. -/
def wroteAfter (pre : List TraceEvent) (now : Int) : Metric :=
  trace Metric.fresh (pre ++ [.WroteRequest now])

/-- The TLS run on the synthetic readings of the specification, measured from the instant `b`. -/
def tlsExample (b : Int) : Metric :=
  tlsRun b (b + ms 10) (b + ms 10) (b + ms 40) (b + ms 40) (b + ms 90) (b + ms 90) (b + ms 190)
    (b + ms 290)

/-! ## Formatting (`metric.go`, lines 58-86) -/

/-- The verb `%d` of package `fmt` on an integer: its decimal numeral, with a minus sign in
front when it is negative. -/
def fmtD (n : Int) : String := toString n

/-- The verb `%4d` of package `fmt`, for any width: the text of `%d`, padded with spaces on the
left up to the width. -/
def fmtDWidth (width : Nat) (n : Int) : String :=
  String.mk (List.replicate (width - (fmtD n).length) ' ') ++ fmtD n

/-- The quotient `d / time.Millisecond` of Go: integer division, truncated toward zero. The
conversion `int(...)` around it is the identity where `int` has 64 bits. -/
def millis (d : Int) : Int := Int.tdiv d Millisecond

/-- The compact branch of `Format` (cases `s`, `q`, and `v` falling through): one string per
entry of `durations()`, in the order `range` visits them, joined by a comma and a space. -/
def Metric.compact (m : Metric) (range : List (String × Int) → List (String × Int)) : String :=
  let d := m.durations
  let list := (range d).map (fun kv => kv.1 ++ ": " ++ fmtD (millis kv.2) ++ " ms")
  ", ".intercalate list

/-- The method `Format`. `plus` is `s.Flag('+')`; `range` is the order in which the statement
`range` visits the entries of a map, which Go leaves unspecified; the result lists the strings
written to `s`, one per call of `io.WriteString`. -/
def Metric.Format (m : Metric) (plus : Bool) (verb : Char)
    (range : List (String × Int) → List (String × Int)) : List String :=
  if verb = 'v' then
    if plus then
      let buf := ""
      let buf := buf ++ ("DNS lookup:        " ++ fmtDWidth 4 (millis m.DNSLookup) ++ " ms\n")
      let buf := buf ++ ("TCP connection:    " ++ fmtDWidth 4 (millis m.TCPConnection) ++ " ms\n")
      let buf := buf ++ ("TLS handshake:     " ++ fmtDWidth 4 (millis m.TLSHandshake) ++ " ms\n")
      let buf := buf ++
        ("Server processing: " ++ fmtDWidth 4 (millis m.ServerProcessing) ++ " ms\n")
      let buf := buf ++ ("Content transfer:  " ++ fmtDWidth 4 (millis m.ContentTransfer) ++ " ms\n")
      let buf := buf ++ ("Name Lookup:    " ++ fmtDWidth 4 (millis m.NameLookup) ++ " ms\n")
      let buf := buf ++ ("Connect:        " ++ fmtDWidth 4 (millis m.Connect) ++ " ms\n")
      let buf := buf ++ ("Pre Transfer:   " ++ fmtDWidth 4 (millis m.Pretransfer) ++ " ms\n")
      let buf := buf ++ ("Start Transfer: " ++ fmtDWidth 4 (millis m.StartTransfer) ++ " ms\n")
      let buf := buf ++ ("Total:          " ++ fmtDWidth 4 (millis m.Total) ++ " ms\n")
      [buf]
    else [m.compact range]
  else if verb = 's' ∨ verb = 'q' then [m.compact range]
  else []

/-- A `range` over a Go map visits every entry exactly once, in some order. -/
def IsRange (range : List (String × Int) → List (String × Int)) : Prop :=
  ∀ d, (range d).Perm d

/-- The Metric of `TestMetricFormatter`: the ten durations are 100 ms. -/
def testMetric : Metric :=
  { DNSLookup := ms 100, TCPConnection := ms 100, TLSHandshake := ms 100,
    ServerProcessing := ms 100, ContentTransfer := ms 100, NameLookup := ms 100,
    Connect := ms 100, Pretransfer := ms 100, StartTransfer := ms 100, Total := ms 100 }

/-- The text `want` of `TestMetricFormatter`. -/
def testWant : String :=
  "DNS lookup:         100 ms\nTCP connection:     100 ms\nTLS handshake:      100 ms\nServer processing:  100 ms\nContent transfer:   100 ms\nName Lookup:     100 ms\nConnect:         100 ms\nPre Transfer:    100 ms\nStart Transfer:  100 ms\nTotal:           100 ms\n"

/-- The rows of the verbose report of the specification: the label with its padding, and the
field the row shows. -/
def verboseRows (m : Metric) : List (String × Int) :=
  [ ("DNS lookup:        ", m.DNSLookup),
    ("TCP connection:    ", m.TCPConnection),
    ("TLS handshake:     ", m.TLSHandshake),
    ("Server processing: ", m.ServerProcessing),
    ("Content transfer:  ", m.ContentTransfer),
    ("Name Lookup:    ", m.NameLookup),
    ("Connect:        ", m.Connect),
    ("Pre Transfer:   ", m.Pretransfer),
    ("Start Transfer: ", m.StartTransfer),
    ("Total:          ", m.Total) ]

/-- One line of the verbose report, without its newline: the label, the count of milliseconds
right-aligned to the width 4, and the unit. -/
def verboseLine (row : String × Int) : String :=
  row.1 ++ fmtDWidth 4 (millis row.2) ++ " ms"

/-! ## The orchestrator (`result.go`) -/

/-- The struct `Result`; `Req` stands for `*http.Request`. -/
structure Result (Req : Type) where
  m : Metric := {}
  r : Req

/-- The constructor `NewMetricResult`. -/
def NewMetricResult {Req : Type} (r : Req) : Result Req :=
  { r := r }

/-- The HTTP client, abstract. `Do` is `client.Do(req)` on the request that carries the hooks:
the hooks it invokes, in order, and the response body or the error it returns. `Copy` is
`io.Copy(ioutil.Discard, res.Body)`: the hooks invoked while the body is read, and the error
it returns, if any. -/
structure Client (Req Body Err : Type) where
  Do : Req → List TraceEvent × Except Err Body
  Copy : Body → List TraceEvent × Option Err

/-- The calls `Result.Do` makes, for the record of their order. -/
inductive Call where
  | dispatch
  | copy
  | close
  | End (t : Int)
deriving DecidableEq, Repr

/-- What `Result.Do` returns, with the record of the calls it made. -/
structure Outcome (Err : Type) where
  metric : Metric
  err : Option Err
  calls : List Call

/-- The method `Do`. `WithHttpMertics` binds the hooks to `rs.m`, so the hooks the client
invokes act on `rs.m`; `now` is the reading `time.Now()` passed to `End`. -/
def Result.Do {Req Body Err : Type} (rs : Result Req) (client : Client Req Body Err)
    (now : Int) : Outcome Err :=
  match client.Do rs.r with
  | (evs, .error err) => { metric := trace rs.m evs, err := some err, calls := [.dispatch] }
  | (evs, .ok body) =>
    let m := trace rs.m evs
    match client.Copy body with
    | (evs2, some err) =>
      { metric := trace m evs2, err := some err, calls := [.dispatch, .copy] }
    | (evs2, none) =>
      let m := trace m evs2
      let m := m.End now
      { metric := m, err := none, calls := [.dispatch, .copy, .close, .End now] }

/-- A client whose dispatch fails once the name is resolved: two hooks, then an error. -/
def failingClient : Client Unit Unit String :=
  { Do := fun _ => ([.DNSStart 1, .DNSDone 2], .error "dial tcp: connection refused"),
    Copy := fun _ => ([], none) }

/-- A client that answers a plaintext request, and whose body cannot be read to its end. -/
def brokenBodyClient : Client Unit Unit String :=
  { Do := fun _ => ([.DNSStart 1, .DNSDone 2, .ConnectStart 3, .ConnectDone 4, .GotConn false,
      .WroteRequest 5, .GotFirstResponseByte 6], .ok ()),
    Copy := fun _ => ([], some "unexpected EOF") }

/-- A client that answers a plaintext request, and whose body is read to its end. -/
def plainClient : Client Unit Unit String :=
  { Do := fun _ => ([.DNSStart 1, .DNSDone 2, .ConnectStart 3, .ConnectDone 4, .GotConn false,
      .WroteRequest 5, .GotFirstResponseByte 6], .ok ()),
    Copy := fun _ => ([], none) }

/-- A call `rs.Do()` as the caller sees it. The receiver of `Do` is a value (`func (rs Result)
Do()`): `Do` works on a copy of the Result, the hooks are bound to the Metric of the copy, and
the Result of the caller is after the call what it was before. The first component is the
Result of the caller after the call, the second is what the call returns. -/
def Result.callDo {Req Body Err : Type} (rs : Result Req) (client : Client Req Body Err)
    (now : Int) : Result Req × Outcome Err :=
  (rs, rs.Do client now)

/-- A call `m.durations()` as the caller sees it. The receiver is a pointer, and the body is a
single `return` of a map literal with no assignment: the first component is the Metric after
the call, the second is the map returned. -/
def Metric.callDurations (m : Metric) : Metric × List (String × Int) :=
  (m, m.durations)

/-! ## Vocabulary of the claims on sequences -/

/-- The clock reading a hook takes is a set instant (`GotConn` takes none). -/
def TraceEvent.readingSet : TraceEvent → Prop
  | .DNSStart now => now ≠ 0
  | .DNSDone now => now ≠ 0
  | .ConnectStart now => now ≠ 0
  | .ConnectDone now => now ≠ 0
  | .TLSHandshakeStart now => now ≠ 0
  | .TLSHandshakeDone now => now ≠ 0
  | .GotConn _ => True
  | .WroteRequest now => now ≠ 0
  | .GotFirstResponseByte now => now ≠ 0

/-- The clock reading of an operation is a set instant. -/
def Op.readingSet : Op → Prop
  | .hook e => e.readingSet
  | .End t => t ≠ 0

/-- The three hooks that can populate `dnsStart`: `DNSStart`, `ConnectStart`, `WroteRequest`. -/
def Op.isAnchor : Op → Bool
  | .hook (.DNSStart _) => true
  | .hook (.ConnectStart _) => true
  | .hook (.WroteRequest _) => true
  | _ => false

/-- No operation of the sequence, performed from `m` on, rewrites `dnsStart`. -/
def keepsAnchor : Metric → List Op → Prop
  | _, [] => True
  | m, op :: ops => (op.apply m).dnsStart = m.dnsStart ∧ keepsAnchor (op.apply m) ops

/-- The difference `t - u` is in the range of `Duration`: `Time.Sub` does not saturate. -/
def fits (t u : Int) : Prop :=
  minDuration ≤ t - u ∧ t - u ≤ maxDuration

/-- The Metric after `GotFirstResponseByte` at `t7` on `m`, the operations `mid`, and `End` at
`t8`. -/
def firstByteToEnd (m : Metric) (t7 : Int) (mid : List Op) (t8 : Int) : Metric :=
  (run (withClientTrace.GotFirstResponseByte m t7) mid).End t8

/-- The Metric after a request on which no hook fired before the request was written:
`WroteRequest`, `GotFirstResponseByte`, `End`, started fresh. -/
def bareRun (t6 t7 t8 : Int) : Metric :=
  run Metric.fresh [.hook (.WroteRequest t6), .hook (.GotFirstResponseByte t7), .End t8]

/-- The Metric after the operations `pre`, then `ConnectStart` followed by `ConnectDone`, then
the operations `post`, started fresh. -/
def connectRun (pre : List Op) (t2 t3 : Int) (post : List Op) : Metric :=
  run Metric.fresh (pre ++ [.hook (.ConnectStart t2), .hook (.ConnectDone t3)] ++ post)

/-- The order of the checkpoints and the sign of the phases: `0 <= NameLookup <= Connect <=
Pretransfer <= StartTransfer <= Total`, and none of the five phase durations is negative. -/
def Metric.checkpointsOrdered (r : Metric) : Prop :=
  (0 ≤ r.NameLookup ∧ r.NameLookup ≤ r.Connect ∧ r.Connect ≤ r.Pretransfer ∧
    r.Pretransfer ≤ r.StartTransfer ∧ r.StartTransfer ≤ r.Total) ∧
  (0 ≤ r.DNSLookup ∧ 0 ≤ r.TCPConnection ∧ 0 ≤ r.TLSHandshake ∧ 0 ≤ r.ServerProcessing ∧
    0 ≤ r.ContentTransfer)

/-- A dial that raced with the delivery of an idle connection: the DNS, connect and TLS hooks
of the dial fire, then the request is given a pooled connection (`GotConn` with
`reused = true`). -/
def racedDial : List TraceEvent :=
  [ .DNSStart 1, .DNSDone 2, .ConnectStart 3, .ConnectDone 5, .TLSHandshakeStart 6,
    .TLSHandshakeDone 9, .GotConn true ]

/-! ## Lemmas on the time library -/

theorem Time.IsZero_iff (t : Int) : Time.IsZero t = true ↔ t = 0 := by
  simp [Time.IsZero]

theorem Time.Sub_self (t : Int) : Time.Sub t t = 0 := by
  simp [Time.Sub, maxDuration, minDuration]

theorem Time.Sub_pos {t u : Int} (h : u < t) : 0 < Time.Sub t u := by
  unfold Time.Sub maxDuration minDuration
  split_ifs <;> omega

theorem Time.Sub_nonneg {t u : Int} (h : u ≤ t) : 0 ≤ Time.Sub t u := by
  unfold Time.Sub maxDuration minDuration
  split_ifs <;> omega

theorem Time.Sub_exact {t u : Int} (hlo : minDuration ≤ t - u) (hhi : t - u ≤ maxDuration) :
    Time.Sub t u = t - u := by
  unfold Time.Sub
  unfold maxDuration minDuration at *
  split_ifs <;> omega

/-- The final state of the full TLS run, field by field. -/
theorem tlsRun_eq (t0 t1 t2 t3 t4 t5 t6 t7 t8 : Int) (h0 : t0 ≠ 0) :
    tlsRun t0 t1 t2 t3 t4 t5 t6 t7 t8 =
      { DNSLookup := Time.Sub t1 t0, TCPConnection := Time.Sub t3 t2,
        TLSHandshake := Time.Sub t5 t4, ServerProcessing := Time.Sub t7 t6,
        ContentTransfer := Time.Sub t8 t7, NameLookup := Time.Sub t1 t0,
        Connect := Time.Sub t3 t0, Pretransfer := Time.Sub t5 t0,
        StartTransfer := Time.Sub t7 t0, Total := Time.Sub t8 t0,
        dnsStart := t0, dnsDone := t1, tcpStart := t2, tcpDone := t3, tlsStart := t4,
        tlsDone := t5, serverStart := t6, serverDone := t7, transferStart := t7,
        transferDone := t8, isTLS := true, isReused := false } := by
  simp [tlsRun, run, tlsSequence, Op.apply, TraceEvent.apply, withClientTrace.DNSStart,
    withClientTrace.DNSDone, withClientTrace.ConnectStart, withClientTrace.ConnectDone,
    withClientTrace.TLSHandshakeStart, withClientTrace.TLSHandshakeDone, withClientTrace.GotConn,
    withClientTrace.WroteRequest, withClientTrace.GotFirstResponseByte, Metric.End, Metric.fresh,
    Time.IsZero, h0]

/-! ## C1: the measurement accessor -/

/-- C1 (evaluation of the code): `durations()` has exactly the ten keys and nine of them carry
the field of the same name, but the entry "Pretransfer" carries the field `Connect`; on the TLS
run over the synthetic readings of the specification the entry "Pretransfer" is 40 ms while
the field `Pretransfer` is 90 ms. -/
theorem C1_durations_entries :
    (∀ m : Metric, mapKeys m.durations = tenNames) ∧
    (∀ m : Metric,
      mapGet m.durations "DNSLookup" = some m.DNSLookup ∧
      mapGet m.durations "TCPConnection" = some m.TCPConnection ∧
      mapGet m.durations "TLSHandshake" = some m.TLSHandshake ∧
      mapGet m.durations "ServerProcessing" = some m.ServerProcessing ∧
      mapGet m.durations "ContentTransfer" = some m.ContentTransfer ∧
      mapGet m.durations "NameLookup" = some m.NameLookup ∧
      mapGet m.durations "Connect" = some m.Connect ∧
      mapGet m.durations "StartTransfer" = some m.StartTransfer ∧
      mapGet m.durations "Total" = some m.Total) ∧
    (∀ m : Metric, mapGet m.durations "Pretransfer" = some m.Connect) ∧
    mapGet (tlsExample 1).durations "Pretransfer" = some (ms 40) ∧
    (tlsExample 1).Pretransfer = ms 90 ∧
    mapGet (tlsExample 1).durations "Pretransfer" ≠ some (tlsExample 1).Pretransfer := by
  have hrun := tlsRun_eq 1 (1 + ms 10) (1 + ms 10) (1 + ms 40) (1 + ms 40) (1 + ms 90)
    (1 + ms 90) (1 + ms 190) (1 + ms 290) (by decide)
  refine ⟨fun m => rfl, fun m => ?_, fun m => ?_, ?_, ?_, ?_⟩
  · simp [mapGet, Metric.durations]
  · simp [mapGet, Metric.durations]
  · simp only [tlsExample, hrun]
    simp [mapGet, Metric.durations, Time.Sub, ms, Millisecond, maxDuration, minDuration]
  · simp only [tlsExample, hrun]
    simp [Time.Sub, ms, Millisecond, maxDuration, minDuration]
  · simp only [tlsExample, hrun]
    simp [mapGet, Metric.durations, Time.Sub, ms, Millisecond, maxDuration, minDuration]

/-! ## C2: the full TLS sequence -/

/-- C2: the full TLS sequence in normal order on a fresh Metric, the first reading `t0` being a
set instant, gives `isTLS = true` and the ten durations as the differences (`Time.Sub`) of the
readings named in the claim; the differences are exact integers when the readings are
non-decreasing and span no more than the largest Duration; strictly increasing readings make
all ten durations strictly positive; and readings at the offsets 0, 10, 10, 40, 40, 90, 90,
190, 290 ms from `t0` give 10, 30, 50, 100, 100, 10, 40, 90, 190, 290 ms. -/
theorem C2_tls_run (t0 t1 t2 t3 t4 t5 t6 t7 t8 : Int) (h0 : t0 ≠ 0) :
    ((tlsRun t0 t1 t2 t3 t4 t5 t6 t7 t8).isTLS = true ∧
      (tlsRun t0 t1 t2 t3 t4 t5 t6 t7 t8).DNSLookup = Time.Sub t1 t0 ∧
      (tlsRun t0 t1 t2 t3 t4 t5 t6 t7 t8).TCPConnection = Time.Sub t3 t2 ∧
      (tlsRun t0 t1 t2 t3 t4 t5 t6 t7 t8).TLSHandshake = Time.Sub t5 t4 ∧
      (tlsRun t0 t1 t2 t3 t4 t5 t6 t7 t8).ServerProcessing = Time.Sub t7 t6 ∧
      (tlsRun t0 t1 t2 t3 t4 t5 t6 t7 t8).ContentTransfer = Time.Sub t8 t7 ∧
      (tlsRun t0 t1 t2 t3 t4 t5 t6 t7 t8).NameLookup = Time.Sub t1 t0 ∧
      (tlsRun t0 t1 t2 t3 t4 t5 t6 t7 t8).Connect = Time.Sub t3 t0 ∧
      (tlsRun t0 t1 t2 t3 t4 t5 t6 t7 t8).Pretransfer = Time.Sub t5 t0 ∧
      (tlsRun t0 t1 t2 t3 t4 t5 t6 t7 t8).StartTransfer = Time.Sub t7 t0 ∧
      (tlsRun t0 t1 t2 t3 t4 t5 t6 t7 t8).Total = Time.Sub t8 t0) ∧
    (t0 ≤ t1 ∧ t1 ≤ t2 ∧ t2 ≤ t3 ∧ t3 ≤ t4 ∧ t4 ≤ t5 ∧ t5 ≤ t6 ∧ t6 ≤ t7 ∧ t7 ≤ t8 ∧
        t8 - t0 ≤ maxDuration →
      (tlsRun t0 t1 t2 t3 t4 t5 t6 t7 t8).DNSLookup = t1 - t0 ∧
      (tlsRun t0 t1 t2 t3 t4 t5 t6 t7 t8).TCPConnection = t3 - t2 ∧
      (tlsRun t0 t1 t2 t3 t4 t5 t6 t7 t8).TLSHandshake = t5 - t4 ∧
      (tlsRun t0 t1 t2 t3 t4 t5 t6 t7 t8).ServerProcessing = t7 - t6 ∧
      (tlsRun t0 t1 t2 t3 t4 t5 t6 t7 t8).ContentTransfer = t8 - t7 ∧
      (tlsRun t0 t1 t2 t3 t4 t5 t6 t7 t8).NameLookup = t1 - t0 ∧
      (tlsRun t0 t1 t2 t3 t4 t5 t6 t7 t8).Connect = t3 - t0 ∧
      (tlsRun t0 t1 t2 t3 t4 t5 t6 t7 t8).Pretransfer = t5 - t0 ∧
      (tlsRun t0 t1 t2 t3 t4 t5 t6 t7 t8).StartTransfer = t7 - t0 ∧
      (tlsRun t0 t1 t2 t3 t4 t5 t6 t7 t8).Total = t8 - t0) ∧
    (t0 < t1 ∧ t1 < t2 ∧ t2 < t3 ∧ t3 < t4 ∧ t4 < t5 ∧ t5 < t6 ∧ t6 < t7 ∧ t7 < t8 →
      0 < (tlsRun t0 t1 t2 t3 t4 t5 t6 t7 t8).DNSLookup ∧
      0 < (tlsRun t0 t1 t2 t3 t4 t5 t6 t7 t8).TCPConnection ∧
      0 < (tlsRun t0 t1 t2 t3 t4 t5 t6 t7 t8).TLSHandshake ∧
      0 < (tlsRun t0 t1 t2 t3 t4 t5 t6 t7 t8).ServerProcessing ∧
      0 < (tlsRun t0 t1 t2 t3 t4 t5 t6 t7 t8).ContentTransfer ∧
      0 < (tlsRun t0 t1 t2 t3 t4 t5 t6 t7 t8).NameLookup ∧
      0 < (tlsRun t0 t1 t2 t3 t4 t5 t6 t7 t8).Connect ∧
      0 < (tlsRun t0 t1 t2 t3 t4 t5 t6 t7 t8).Pretransfer ∧
      0 < (tlsRun t0 t1 t2 t3 t4 t5 t6 t7 t8).StartTransfer ∧
      0 < (tlsRun t0 t1 t2 t3 t4 t5 t6 t7 t8).Total) ∧
    (t1 = t0 + ms 10 ∧ t2 = t0 + ms 10 ∧ t3 = t0 + ms 40 ∧ t4 = t0 + ms 40 ∧
        t5 = t0 + ms 90 ∧ t6 = t0 + ms 90 ∧ t7 = t0 + ms 190 ∧ t8 = t0 + ms 290 →
      (tlsRun t0 t1 t2 t3 t4 t5 t6 t7 t8).DNSLookup = ms 10 ∧
      (tlsRun t0 t1 t2 t3 t4 t5 t6 t7 t8).TCPConnection = ms 30 ∧
      (tlsRun t0 t1 t2 t3 t4 t5 t6 t7 t8).TLSHandshake = ms 50 ∧
      (tlsRun t0 t1 t2 t3 t4 t5 t6 t7 t8).ServerProcessing = ms 100 ∧
      (tlsRun t0 t1 t2 t3 t4 t5 t6 t7 t8).ContentTransfer = ms 100 ∧
      (tlsRun t0 t1 t2 t3 t4 t5 t6 t7 t8).NameLookup = ms 10 ∧
      (tlsRun t0 t1 t2 t3 t4 t5 t6 t7 t8).Connect = ms 40 ∧
      (tlsRun t0 t1 t2 t3 t4 t5 t6 t7 t8).Pretransfer = ms 90 ∧
      (tlsRun t0 t1 t2 t3 t4 t5 t6 t7 t8).StartTransfer = ms 190 ∧
      (tlsRun t0 t1 t2 t3 t4 t5 t6 t7 t8).Total = ms 290) := by
  rw [tlsRun_eq t0 t1 t2 t3 t4 t5 t6 t7 t8 h0]
  dsimp only
  refine ⟨by simp, ?_, ?_, ?_⟩
  · intro h
    have hmin : minDuration ≤ -1 := by decide
    refine ⟨?_, ?_, ?_, ?_, ?_, ?_, ?_, ?_, ?_, ?_⟩ <;>
      exact Time.Sub_exact (by omega) (by omega)
  · intro h
    refine ⟨?_, ?_, ?_, ?_, ?_, ?_, ?_, ?_, ?_, ?_⟩ <;> exact Time.Sub_pos (by omega)
  · rintro ⟨rfl, rfl, rfl, rfl, rfl, rfl, rfl, rfl⟩
    simp [Time.Sub, ms, Millisecond, maxDuration, minDuration]

/-- Witness of C2: the readings 1 ns to 9 ns are strictly increasing from a set instant, and
the readings of the specification are taken from the instant 1 ns. -/
theorem C2_tls_run_witness :
    (1 : Int) ≠ 0 ∧
    0 < (tlsRun 1 2 3 4 5 6 7 8 9).Total ∧
    (tlsRun 1 2 3 4 5 6 7 8 9).Total = 9 - 1 ∧
    (tlsRun 1 (1 + ms 10) (1 + ms 10) (1 + ms 40) (1 + ms 40) (1 + ms 90) (1 + ms 90)
      (1 + ms 190) (1 + ms 290)).Total = ms 290 :=
  ⟨by decide,
   ((C2_tls_run 1 2 3 4 5 6 7 8 9 (by decide)).2.2.1 (by decide)).2.2.2.2.2.2.2.2.2,
   ((C2_tls_run 1 2 3 4 5 6 7 8 9 (by decide)).2.1 (by decide)).2.2.2.2.2.2.2.2.2,
   ((C2_tls_run 1 (1 + ms 10) (1 + ms 10) (1 + ms 40) (1 + ms 40) (1 + ms 90) (1 + ms 90)
      (1 + ms 190) (1 + ms 290) (by decide)).2.2.2
      ⟨rfl, rfl, rfl, rfl, rfl, rfl, rfl, rfl⟩).2.2.2.2.2.2.2.2.2⟩

/-! ## C3: the plaintext sequence -/

/-- C3: the complete plaintext sequence in normal order on a fresh Metric gives `isTLS = false`,
`TLSHandshake = 0` and `Pretransfer = Connect`, whatever the readings; and strictly increasing
readings make the nine other durations strictly positive. -/
theorem C3_plain_run (t0 t1 t2 t3 t6 t7 t8 : Int) :
    ((plainRun t0 t1 t2 t3 t6 t7 t8).isTLS = false ∧
      (plainRun t0 t1 t2 t3 t6 t7 t8).TLSHandshake = 0 ∧
      (plainRun t0 t1 t2 t3 t6 t7 t8).Pretransfer = (plainRun t0 t1 t2 t3 t6 t7 t8).Connect) ∧
    (t0 < t1 ∧ t1 < t2 ∧ t2 < t3 ∧ t3 < t6 ∧ t6 < t7 ∧ t7 < t8 →
      0 < (plainRun t0 t1 t2 t3 t6 t7 t8).DNSLookup ∧
      0 < (plainRun t0 t1 t2 t3 t6 t7 t8).TCPConnection ∧
      0 < (plainRun t0 t1 t2 t3 t6 t7 t8).ServerProcessing ∧
      0 < (plainRun t0 t1 t2 t3 t6 t7 t8).ContentTransfer ∧
      0 < (plainRun t0 t1 t2 t3 t6 t7 t8).NameLookup ∧
      0 < (plainRun t0 t1 t2 t3 t6 t7 t8).Connect ∧
      0 < (plainRun t0 t1 t2 t3 t6 t7 t8).Pretransfer ∧
      0 < (plainRun t0 t1 t2 t3 t6 t7 t8).StartTransfer ∧
      0 < (plainRun t0 t1 t2 t3 t6 t7 t8).Total) := by
  have hr : plainRun t0 t1 t2 t3 t6 t7 t8
      = run Metric.fresh (plainSequence t0 t1 t2 t3 t6 t7 t8) := rfl
  constructor
  · rw [hr]
    by_cases h0 : t0 = 0 <;> by_cases h2 : t2 = 0 <;> by_cases h6 : t6 = 0 <;>
      simp [run, plainSequence, Op.apply, TraceEvent.apply, withClientTrace.DNSStart,
        withClientTrace.DNSDone, withClientTrace.ConnectStart, withClientTrace.ConnectDone,
        withClientTrace.GotConn, withClientTrace.WroteRequest,
        withClientTrace.GotFirstResponseByte, Metric.End, Metric.fresh, Time.IsZero, h0, h2, h6,
        Time.Sub_self]
  · intro h
    rw [hr]
    by_cases h0 : t0 = 0
    · have h2 : t2 ≠ 0 := by omega
      subst h0
      simp only [run, plainSequence, List.foldl, Op.apply, TraceEvent.apply,
        withClientTrace.DNSStart, withClientTrace.DNSDone, withClientTrace.ConnectStart,
        withClientTrace.ConnectDone, withClientTrace.GotConn, withClientTrace.WroteRequest,
        withClientTrace.GotFirstResponseByte, Metric.End, Metric.fresh, Time.IsZero, h2,
        Time.Sub_self, decide_True, decide_False, if_true, if_false, Bool.and_self,
        Bool.false_and, Bool.and_false, Bool.false_eq_true]
      refine ⟨?_, ?_, ?_, ?_, ?_, ?_, ?_, ?_, ?_⟩ <;> exact Time.Sub_pos (by omega)
    · simp only [run, plainSequence, List.foldl, Op.apply, TraceEvent.apply,
        withClientTrace.DNSStart, withClientTrace.DNSDone, withClientTrace.ConnectStart,
        withClientTrace.ConnectDone, withClientTrace.GotConn, withClientTrace.WroteRequest,
        withClientTrace.GotFirstResponseByte, Metric.End, Metric.fresh, Time.IsZero, h0,
        Time.Sub_self, decide_True, decide_False, if_true, if_false, Bool.and_self,
        Bool.false_and, Bool.and_false, Bool.false_eq_true]
      refine ⟨?_, ?_, ?_, ?_, ?_, ?_, ?_, ?_, ?_⟩ <;> exact Time.Sub_pos (by omega)

/-- Witness of C3: the readings 1 ns to 7 ns are strictly increasing. -/
theorem C3_plain_run_witness :
    0 < (plainRun 1 2 3 4 5 6 7).DNSLookup ∧
    0 < (plainRun 1 2 3 4 5 6 7).Total :=
  ⟨((C3_plain_run 1 2 3 4 5 6 7).2 (by decide)).1,
   ((C3_plain_run 1 2 3 4 5 6 7).2 (by decide)).2.2.2.2.2.2.2.2⟩

/-! ## C4: the sequence of a reused connection -/

/-- C4: the reused-connection sequence on a fresh Metric, `t6` being a set instant, gives
`DNSLookup = TCPConnection = TLSHandshake = 0`, the six setup timestamps equal to
`serverStart = t6`, `ServerProcessing`, `ContentTransfer` and `Total` the differences
(`Time.Sub`) `t7 - t6`, `t8 - t7` and `t8 - t6`, exact when the readings are non-decreasing and
span no more than the largest Duration, and strictly positive when the readings are strictly
increasing. -/
theorem C4_reused_run (t6 t7 t8 : Int) (h6 : t6 ≠ 0) :
    ((reusedRun t6 t7 t8).DNSLookup = 0 ∧ (reusedRun t6 t7 t8).TCPConnection = 0 ∧
      (reusedRun t6 t7 t8).TLSHandshake = 0) ∧
    ((reusedRun t6 t7 t8).dnsStart = t6 ∧ (reusedRun t6 t7 t8).dnsDone = t6 ∧
      (reusedRun t6 t7 t8).tcpStart = t6 ∧ (reusedRun t6 t7 t8).tcpDone = t6 ∧
      (reusedRun t6 t7 t8).tlsStart = t6 ∧ (reusedRun t6 t7 t8).tlsDone = t6 ∧
      (reusedRun t6 t7 t8).serverStart = t6) ∧
    ((reusedRun t6 t7 t8).ServerProcessing = Time.Sub t7 t6 ∧
      (reusedRun t6 t7 t8).ContentTransfer = Time.Sub t8 t7 ∧
      (reusedRun t6 t7 t8).Total = Time.Sub t8 t6) ∧
    (t6 ≤ t7 ∧ t7 ≤ t8 ∧ t8 - t6 ≤ maxDuration →
      (reusedRun t6 t7 t8).ServerProcessing = t7 - t6 ∧
      (reusedRun t6 t7 t8).ContentTransfer = t8 - t7 ∧
      (reusedRun t6 t7 t8).Total = t8 - t6) ∧
    (t6 < t7 ∧ t7 < t8 →
      0 < (reusedRun t6 t7 t8).ServerProcessing ∧ 0 < (reusedRun t6 t7 t8).ContentTransfer ∧
      0 < (reusedRun t6 t7 t8).Total) := by
  have hr : reusedRun t6 t7 t8 = run Metric.fresh (reusedSequence t6 t7 t8) := rfl
  rw [hr]
  simp only [run, reusedSequence, List.foldl, Op.apply, TraceEvent.apply,
    withClientTrace.GotConn, withClientTrace.WroteRequest,
    withClientTrace.GotFirstResponseByte, Metric.End, Metric.fresh, Time.IsZero, h6,
    Time.Sub_self, decide_True, decide_False, if_true, if_false, Bool.and_self,
    Bool.false_and, Bool.and_false, Bool.false_eq_true, and_self, true_and]
  refine ⟨?_, ?_⟩
  · intro h
    have hmin : minDuration ≤ -1 := by decide
    refine ⟨?_, ?_, ?_⟩ <;> exact Time.Sub_exact (by omega) (by omega)
  · intro h
    refine ⟨?_, ?_, ?_⟩ <;> exact Time.Sub_pos (by omega)

/-- Witness of C4: the readings 1 ns, 2 ns, 3 ns are strictly increasing from a set instant. -/
theorem C4_reused_run_witness :
    (1 : Int) ≠ 0 ∧
    (reusedRun 1 2 3).DNSLookup = 0 ∧
    0 < (reusedRun 1 2 3).Total :=
  ⟨by decide, (C4_reused_run 1 2 3 (by decide)).1.1,
   ((C4_reused_run 1 2 3 (by decide)).2.2.2.2 (by decide)).2.2⟩

/-! ## Sequences: composition and invariants -/

theorem trace_append (m : Metric) (xs ys : List TraceEvent) :
    trace m (xs ++ ys) = trace (trace m xs) ys := by
  simp [trace, List.foldl_append]

theorem run_append (m : Metric) (xs ys : List Op) :
    run m (xs ++ ys) = run (run m xs) ys := by
  simp [run, List.foldl_append]

theorem run_hooks (m : Metric) (evs : List TraceEvent) :
    run m (evs.map Op.hook) = trace m evs := by
  induction evs generalizing m with
  | nil => rfl
  | cons e es ih => simpa [run, trace, Op.apply] using ih (e.apply m)

/-- A property kept by every permitted hook is kept by a sequence of permitted hooks. -/
theorem trace_invariant (P : Metric → Prop) (ok : TraceEvent → Prop)
    (hstep : ∀ m e, ok e → P m → P (e.apply m)) :
    ∀ (evs : List TraceEvent) (m : Metric), (∀ e ∈ evs, ok e) → P m → P (trace m evs) := by
  intro evs
  induction evs with
  | nil => intro m _ hm; exact hm
  | cons e es ih =>
    intro m hok hm
    have he : ok e := hok e (List.mem_cons_self e es)
    have hes : ∀ x ∈ es, ok x := fun x hx => hok x (List.mem_cons_of_mem e hx)
    exact ih (e.apply m) hes (hstep m e he hm)

/-- A property kept by every permitted operation is kept by a sequence of permitted ones. -/
theorem run_invariant (P : Metric → Prop) (ok : Op → Prop)
    (hstep : ∀ m op, ok op → P m → P (op.apply m)) :
    ∀ (ops : List Op) (m : Metric), (∀ op ∈ ops, ok op) → P m → P (run m ops) := by
  intro ops
  induction ops with
  | nil => intro m _ hm; exact hm
  | cons o os ih =>
    intro m hok hm
    have ho : ok o := hok o (List.mem_cons_self o os)
    have hos : ∀ x ∈ os, ok x := fun x hx => hok x (List.mem_cons_of_mem o hx)
    exact ih (o.apply m) hos (hstep m o ho hm)

/-- No hook resets `isReused`. -/
theorem apply_isReused (m : Metric) (e : TraceEvent) (h : m.isReused = true) :
    (e.apply m).isReused = true := by
  cases e <;>
    simp only [TraceEvent.apply, withClientTrace.DNSStart, withClientTrace.DNSDone,
      withClientTrace.ConnectStart, withClientTrace.ConnectDone,
      withClientTrace.TLSHandshakeStart, withClientTrace.TLSHandshakeDone,
      withClientTrace.GotConn, withClientTrace.WroteRequest,
      withClientTrace.GotFirstResponseByte] <;>
    (repeat (split <;> try simp [h])) <;> simp [h]

/-- Which hooks write which duration: every duration field is left alone by the hooks that
are not its writers (`TLSHandshake` is written by `TLSHandshakeDone`, and reset to zero by
`WroteRequest`). -/
theorem apply_frame (m : Metric) (e : TraceEvent) :
    ((∀ t, e ≠ .DNSDone t) →
      (e.apply m).DNSLookup = m.DNSLookup ∧ (e.apply m).NameLookup = m.NameLookup) ∧
    ((∀ t, e ≠ .ConnectDone t) →
      (e.apply m).TCPConnection = m.TCPConnection ∧ (e.apply m).Connect = m.Connect) ∧
    ((∀ t, e ≠ .TLSHandshakeDone t) → m.TLSHandshake = 0 → (e.apply m).TLSHandshake = 0) ∧
    ((∀ t, e ≠ .TLSHandshakeDone t) → (∀ t, e ≠ .WroteRequest t) →
      (e.apply m).Pretransfer = m.Pretransfer) ∧
    ((∀ t, e ≠ .GotFirstResponseByte t) →
      (e.apply m).ServerProcessing = m.ServerProcessing ∧
      (e.apply m).StartTransfer = m.StartTransfer) ∧
    ((e.apply m).ContentTransfer = m.ContentTransfer ∧ (e.apply m).Total = m.Total) ∧
    ((∀ t, e ≠ .TLSHandshakeStart t) → (e.apply m).isTLS = m.isTLS) := by
  cases e <;>
    simp only [TraceEvent.apply, withClientTrace.DNSStart, withClientTrace.DNSDone,
      withClientTrace.ConnectStart, withClientTrace.ConnectDone,
      withClientTrace.TLSHandshakeStart, withClientTrace.TLSHandshakeDone,
      withClientTrace.GotConn, withClientTrace.WroteRequest,
      withClientTrace.GotFirstResponseByte] <;>
    (try split_ifs) <;> simp_all [Time.Sub_self]

/-- What `End` leaves alone: every field but `transferDone`, `ContentTransfer`, `Total`. -/
theorem End_frame (m : Metric) (t : Int) :
    (m.End t).DNSLookup = m.DNSLookup ∧ (m.End t).NameLookup = m.NameLookup ∧
    (m.End t).TCPConnection = m.TCPConnection ∧ (m.End t).Connect = m.Connect ∧
    (m.End t).TLSHandshake = m.TLSHandshake ∧ (m.End t).Pretransfer = m.Pretransfer ∧
    (m.End t).ServerProcessing = m.ServerProcessing ∧
    (m.End t).StartTransfer = m.StartTransfer ∧
    (m.End t).isTLS = m.isTLS ∧ (m.End t).isReused = m.isReused := by
  simp only [Metric.End]
  split_ifs <;> simp

/-- Which operations write which duration (`apply_frame` and `End_frame` together). -/
theorem op_frame (m : Metric) (op : Op) :
    ((∀ t, op ≠ .hook (.DNSDone t)) →
      (op.apply m).DNSLookup = m.DNSLookup ∧ (op.apply m).NameLookup = m.NameLookup) ∧
    ((∀ t, op ≠ .hook (.ConnectDone t)) →
      (op.apply m).TCPConnection = m.TCPConnection ∧ (op.apply m).Connect = m.Connect) ∧
    ((∀ t, op ≠ .hook (.TLSHandshakeDone t)) → m.TLSHandshake = 0 →
      (op.apply m).TLSHandshake = 0) ∧
    ((∀ t, op ≠ .hook (.TLSHandshakeDone t)) → (∀ t, op ≠ .hook (.WroteRequest t)) →
      (op.apply m).Pretransfer = m.Pretransfer) ∧
    ((∀ t, op ≠ .hook (.GotFirstResponseByte t)) →
      (op.apply m).ServerProcessing = m.ServerProcessing ∧
      (op.apply m).StartTransfer = m.StartTransfer) ∧
    ((∀ t, op ≠ .End t) →
      (op.apply m).ContentTransfer = m.ContentTransfer ∧ (op.apply m).Total = m.Total) := by
  cases op with
  | hook e =>
    have h := apply_frame m e
    simp only [Op.apply, ne_eq, Op.hook.injEq]
    exact ⟨h.1, h.2.1, h.2.2.1, h.2.2.2.1, h.2.2.2.2.1, fun _ => h.2.2.2.2.2.1⟩
  | End t =>
    have h := End_frame m t
    simp only [Op.apply, ne_eq, Op.End.injEq]
    refine ⟨fun _ => ⟨h.1, h.2.1⟩, fun _ => ⟨h.2.2.1, h.2.2.2.1⟩, fun _ h0 => ?_,
      fun _ _ => h.2.2.2.2.2.1, fun _ => ⟨h.2.2.2.2.2.2.1, h.2.2.2.2.2.2.2.1⟩, fun hne => ?_⟩
    · rw [h.2.2.2.2.1]; exact h0
    · exact absurd rfl (hne t)

/-- An absent operation differs from every operation of the sequence. -/
theorem ne_of_not_mem {α : Type} {ops : List α} {f : Int → α} (h : ∀ t, f t ∉ ops) :
    ∀ op ∈ ops, ∀ t, op ≠ f t := by
  intro op hop t heq
  exact h t (heq ▸ hop)

/-- Once `GotConn` has reported a reused connection, `isReused` is set for good. -/
theorem trace_isReused (m : Metric) (pre : List TraceEvent)
    (h : TraceEvent.GotConn true ∈ pre) : (trace m pre).isReused = true := by
  obtain ⟨xs, ys, rfl⟩ := List.append_of_mem h
  have hcons : xs ++ TraceEvent.GotConn true :: ys = (xs ++ [TraceEvent.GotConn true]) ++ ys := by
    simp
  rw [hcons, trace_append, trace_append]
  refine trace_invariant (fun m => m.isReused = true) (fun _ => True)
    (fun m e _ hm => apply_isReused m e hm) ys _ (fun _ _ => trivial) ?_
  simp [trace, TraceEvent.apply, withClientTrace.GotConn]

/-- The effect of `WroteRequest` when the connection has been reported reused. -/
theorem WroteRequest_reused (m : Metric) (now : Int) (h : m.isReused = true) :
    (withClientTrace.WroteRequest m now).dnsStart = now ∧
    (withClientTrace.WroteRequest m now).dnsDone = now ∧
    (withClientTrace.WroteRequest m now).tcpStart = now ∧
    (withClientTrace.WroteRequest m now).tcpDone = now ∧
    (withClientTrace.WroteRequest m now).tlsStart = now ∧
    (withClientTrace.WroteRequest m now).tlsDone = now ∧
    (withClientTrace.WroteRequest m now).serverStart = now ∧
    (withClientTrace.WroteRequest m now).DNSLookup = m.DNSLookup ∧
    (withClientTrace.WroteRequest m now).TCPConnection = m.TCPConnection ∧
    (withClientTrace.WroteRequest m now).TLSHandshake =
      (if m.isTLS then m.TLSHandshake else 0) := by
  simp only [withClientTrace.WroteRequest]
  split_ifs <;> simp_all [Time.Sub_self]

/-! ## C5: a reused connection and the setup durations -/

/-- C5 (as stated, refuted): after a dial that raced with the delivery of a pooled connection,
`GotConn` has reported `reused = true` before `WroteRequest` fires, and yet after
`WroteRequest` the three setup durations are 1 ns, 2 ns and 3 ns, none of them zero. -/
theorem C5_counterexample :
    TraceEvent.GotConn true ∈ racedDial ∧
    (wroteAfter racedDial 10).DNSLookup = 1 ∧
    (wroteAfter racedDial 10).TCPConnection = 2 ∧
    (wroteAfter racedDial 10).TLSHandshake = 3 := by
  refine ⟨by simp [racedDial], ?_, ?_, ?_⟩ <;>
    simp [wroteAfter, trace, racedDial, TraceEvent.apply, withClientTrace.DNSStart,
      withClientTrace.DNSDone,
      withClientTrace.ConnectStart, withClientTrace.ConnectDone,
      withClientTrace.TLSHandshakeStart, withClientTrace.TLSHandshakeDone,
      withClientTrace.GotConn, withClientTrace.WroteRequest, Metric.fresh, Time.IsZero,
      Time.Sub, maxDuration, minDuration]

/-- C5 (amended): when `GotConn` has reported `reused = true` before `WroteRequest` fires, then
after `WroteRequest` the six setup timestamps are pinned to `serverStart`, the reading of
`WroteRequest`; `DNSLookup` is zero if no `DNSDone` was delivered before, `TCPConnection` is
zero if no `ConnectDone` was, and `TLSHandshake` is zero if no `TLSHandshakeDone` or no
`TLSHandshakeStart` was. -/
theorem C5_reused_collapse (pre : List TraceEvent) (now : Int)
    (hre : TraceEvent.GotConn true ∈ pre) :
    ((wroteAfter pre now).dnsStart = now ∧ (wroteAfter pre now).dnsDone = now ∧
      (wroteAfter pre now).tcpStart = now ∧ (wroteAfter pre now).tcpDone = now ∧
      (wroteAfter pre now).tlsStart = now ∧ (wroteAfter pre now).tlsDone = now ∧
      (wroteAfter pre now).serverStart = now) ∧
    ((∀ t, TraceEvent.DNSDone t ∉ pre) → (wroteAfter pre now).DNSLookup = 0) ∧
    ((∀ t, TraceEvent.ConnectDone t ∉ pre) → (wroteAfter pre now).TCPConnection = 0) ∧
    ((∀ t, TraceEvent.TLSHandshakeDone t ∉ pre) ∨ (∀ t, TraceEvent.TLSHandshakeStart t ∉ pre) →
      (wroteAfter pre now).TLSHandshake = 0) := by
  have hr : wroteAfter pre now = withClientTrace.WroteRequest (trace Metric.fresh pre) now := by
    simp [wroteAfter, trace_append, trace, TraceEvent.apply]
  have hw := WroteRequest_reused (trace Metric.fresh pre) now (trace_isReused _ pre hre)
  rw [hr]
  refine ⟨⟨hw.1, hw.2.1, hw.2.2.1, hw.2.2.2.1, hw.2.2.2.2.1, hw.2.2.2.2.2.1,
    hw.2.2.2.2.2.2.1⟩, fun h => ?_, fun h => ?_, fun h => ?_⟩
  · rw [hw.2.2.2.2.2.2.2.1]
    exact trace_invariant (fun m => m.DNSLookup = 0) (fun e => ∀ t, e ≠ .DNSDone t)
      (fun m e he hm => ((apply_frame m e).1 he).1.trans hm) pre _
      (ne_of_not_mem h) rfl
  · rw [hw.2.2.2.2.2.2.2.2.1]
    exact trace_invariant (fun m => m.TCPConnection = 0) (fun e => ∀ t, e ≠ .ConnectDone t)
      (fun m e he hm => ((apply_frame m e).2.1 he).1.trans hm) pre _
      (ne_of_not_mem h) rfl
  · rw [hw.2.2.2.2.2.2.2.2.2]
    rcases h with h | h
    · have h0 : (trace Metric.fresh pre).TLSHandshake = 0 :=
        trace_invariant (fun m => m.TLSHandshake = 0) (fun e => ∀ t, e ≠ .TLSHandshakeDone t)
          (fun m e he hm => (apply_frame m e).2.2.1 he hm) pre _ (ne_of_not_mem h) rfl
      simp [h0]
    · have h0 : (trace Metric.fresh pre).isTLS = false :=
        trace_invariant (fun m => m.isTLS = false) (fun e => ∀ t, e ≠ .TLSHandshakeStart t)
          (fun m e he hm => ((apply_frame m e).2.2.2.2.2.2 he).trans hm) pre _
          (ne_of_not_mem h) rfl
      simp [h0]

/-- Witness of C5: a pooled connection with no setup event before the request is written. -/
theorem C5_reused_collapse_witness :
    TraceEvent.GotConn true ∈ [TraceEvent.GotConn true] ∧
    (wroteAfter [.GotConn true] 7).dnsStart = 7 ∧
    (wroteAfter [.GotConn true] 7).DNSLookup = 0 ∧
    (wroteAfter [.GotConn true] 7).TCPConnection = 0 ∧
    (wroteAfter [.GotConn true] 7).TLSHandshake = 0 :=
  ⟨by simp,
   (C5_reused_collapse [.GotConn true] 7 (by simp)).1.1,
   (C5_reused_collapse [.GotConn true] 7 (by simp)).2.1 (by simp),
   (C5_reused_collapse [.GotConn true] 7 (by simp)).2.2.1 (by simp),
   (C5_reused_collapse [.GotConn true] 7 (by simp)).2.2.2 (Or.inl (by simp))⟩

/-! ## C6: finalization -/

/-- C6: `End(t)` sets `transferDone = t`; with `dnsStart` unset it changes nothing else, so
`ContentTransfer` and `Total` keep their values, which are zero on a fresh Metric and on any
Metric that only hooks have touched; with `dnsStart` set it also sets
`ContentTransfer = t - transferStart` and `Total = t - dnsStart` (`Time.Sub`, the exact
difference when `dnsStart`, `transferStart` and `t` are in this order and span no more than the
largest Duration) and changes no other field. `End` is a total function: it has no error
result. -/
theorem C6_End (m : Metric) (t : Int) (evs : List TraceEvent) :
    (m.End t).transferDone = t ∧
    (m.dnsStart = 0 →
      m.End t = { m with transferDone := t } ∧
      (m.End t).ContentTransfer = m.ContentTransfer ∧ (m.End t).Total = m.Total) ∧
    (m.dnsStart ≠ 0 →
      m.End t = { m with transferDone := t, ContentTransfer := Time.Sub t m.transferStart,
                         Total := Time.Sub t m.dnsStart }) ∧
    (m.dnsStart ≠ 0 → m.dnsStart ≤ m.transferStart ∧ m.transferStart ≤ t ∧
        t - m.dnsStart ≤ maxDuration →
      (m.End t).ContentTransfer = t - m.transferStart ∧ (m.End t).Total = t - m.dnsStart) ∧
    ((Metric.fresh.End t).ContentTransfer = 0 ∧ (Metric.fresh.End t).Total = 0) ∧
    ((trace Metric.fresh evs).dnsStart = 0 →
      ((trace Metric.fresh evs).End t).ContentTransfer = 0 ∧
      ((trace Metric.fresh evs).End t).Total = 0) := by
  refine ⟨?_, fun h => ?_, fun h => ?_, fun h hle => ?_, ?_, fun h => ?_⟩
  · simp only [Metric.End]; split_ifs <;> rfl
  · simp [Metric.End, Time.IsZero, h]
  · simp [Metric.End, Time.IsZero, h]
  · have hmin : minDuration ≤ -1 := by decide
    simp only [Metric.End, Time.IsZero, h, decide_False, Bool.false_eq_true, if_false]
    exact ⟨Time.Sub_exact (by omega) (by omega), Time.Sub_exact (by omega) (by omega)⟩
  · simp [Metric.End, Metric.fresh, Time.IsZero]
  · have hz : (trace Metric.fresh evs).ContentTransfer = 0 ∧ (trace Metric.fresh evs).Total = 0 :=
      trace_invariant (fun m => m.ContentTransfer = 0 ∧ m.Total = 0) (fun _ => True)
        (fun m e _ hm => ⟨(apply_frame m e).2.2.2.2.2.1.1.trans hm.1,
          (apply_frame m e).2.2.2.2.2.1.2.trans hm.2⟩)
        evs _ (fun _ _ => trivial) ⟨rfl, rfl⟩
    simp [Metric.End, Time.IsZero, h, hz.1, hz.2]

/-- Witness of C6: `End` on a fresh Metric, on a Metric whose `dnsStart` is unset after the
hook `DNSDone` alone, and on a Metric whose `dnsStart` is the instant 1 ns. -/
theorem C6_End_witness :
    (Metric.fresh.End 9).Total = Metric.fresh.Total ∧
    ((trace Metric.fresh [.DNSDone 5]).End 9).Total = 0 ∧
    (({ dnsStart := 1, transferStart := 4 } : Metric).End 9).Total = Time.Sub 9 1 ∧
    (({ dnsStart := 1, transferStart := 4 } : Metric).End 9).ContentTransfer = 9 - 4 :=
  ⟨((C6_End Metric.fresh 9 []).2.1 rfl).2.2,
   ((C6_End Metric.fresh 9 [.DNSDone 5]).2.2.2.2.2 (by decide)).2,
   by rw [(C6_End { dnsStart := 1, transferStart := 4 } 9 []).2.2.1 (by decide)],
   ((C6_End { dnsStart := 1, transferStart := 4 } 9 []).2.2.2.1 (by decide) (by decide)).1⟩

/-! ## C9: a phase whose completing event never fired -/

/-- C9: after any sequence of hook invocations and calls of `End` on a fresh Metric, a duration
whose writer never ran is zero: `DNSLookup` and `NameLookup` without `DNSDone`,
`TCPConnection` and `Connect` without `ConnectDone`, `TLSHandshake` without
`TLSHandshakeDone`, `Pretransfer` without `TLSHandshakeDone` and `WroteRequest`,
`ServerProcessing` and `StartTransfer` without `GotFirstResponseByte`, `ContentTransfer` and
`Total` without `End`. -/
theorem C9_unfired_phase_zero (ops : List Op) :
    ((∀ t, Op.hook (.DNSDone t) ∉ ops) →
      (run Metric.fresh ops).DNSLookup = 0 ∧ (run Metric.fresh ops).NameLookup = 0) ∧
    ((∀ t, Op.hook (.ConnectDone t) ∉ ops) →
      (run Metric.fresh ops).TCPConnection = 0 ∧ (run Metric.fresh ops).Connect = 0) ∧
    ((∀ t, Op.hook (.TLSHandshakeDone t) ∉ ops) → (run Metric.fresh ops).TLSHandshake = 0) ∧
    ((∀ t, Op.hook (.TLSHandshakeDone t) ∉ ops) → (∀ t, Op.hook (.WroteRequest t) ∉ ops) →
      (run Metric.fresh ops).Pretransfer = 0) ∧
    ((∀ t, Op.hook (.GotFirstResponseByte t) ∉ ops) →
      (run Metric.fresh ops).ServerProcessing = 0 ∧ (run Metric.fresh ops).StartTransfer = 0) ∧
    ((∀ t, Op.End t ∉ ops) →
      (run Metric.fresh ops).ContentTransfer = 0 ∧ (run Metric.fresh ops).Total = 0) := by
  refine ⟨fun h => ?_, fun h => ?_, fun h => ?_, fun h h2 => ?_, fun h => ?_, fun h => ?_⟩
  · exact run_invariant (fun m => m.DNSLookup = 0 ∧ m.NameLookup = 0)
      (fun op => ∀ t, op ≠ .hook (.DNSDone t))
      (fun m op ho hm => ⟨((op_frame m op).1 ho).1.trans hm.1, ((op_frame m op).1 ho).2.trans hm.2⟩)
      ops _ (ne_of_not_mem h) ⟨rfl, rfl⟩
  · exact run_invariant (fun m => m.TCPConnection = 0 ∧ m.Connect = 0)
      (fun op => ∀ t, op ≠ .hook (.ConnectDone t))
      (fun m op ho hm =>
        ⟨((op_frame m op).2.1 ho).1.trans hm.1, ((op_frame m op).2.1 ho).2.trans hm.2⟩)
      ops _ (ne_of_not_mem h) ⟨rfl, rfl⟩
  · exact run_invariant (fun m => m.TLSHandshake = 0)
      (fun op => ∀ t, op ≠ .hook (.TLSHandshakeDone t))
      (fun m op ho hm => (op_frame m op).2.2.1 ho hm)
      ops _ (ne_of_not_mem h) rfl
  · exact run_invariant (fun m => m.Pretransfer = 0)
      (fun op => (∀ t, op ≠ .hook (.TLSHandshakeDone t)) ∧ (∀ t, op ≠ .hook (.WroteRequest t)))
      (fun m op ho hm => ((op_frame m op).2.2.2.1 ho.1 ho.2).trans hm)
      ops _ (fun op hop => ⟨ne_of_not_mem h op hop, ne_of_not_mem h2 op hop⟩) rfl
  · exact run_invariant (fun m => m.ServerProcessing = 0 ∧ m.StartTransfer = 0)
      (fun op => ∀ t, op ≠ .hook (.GotFirstResponseByte t))
      (fun m op ho hm =>
        ⟨((op_frame m op).2.2.2.2.1 ho).1.trans hm.1, ((op_frame m op).2.2.2.2.1 ho).2.trans hm.2⟩)
      ops _ (ne_of_not_mem h) ⟨rfl, rfl⟩
  · exact run_invariant (fun m => m.ContentTransfer = 0 ∧ m.Total = 0)
      (fun op => ∀ t, op ≠ .End t)
      (fun m op ho hm =>
        ⟨((op_frame m op).2.2.2.2.2 ho).1.trans hm.1, ((op_frame m op).2.2.2.2.2 ho).2.trans hm.2⟩)
      ops _ (ne_of_not_mem h) ⟨rfl, rfl⟩

/-- Witness of C9: a request that fails after the connection is made: no TLS handshake, no
request written, no response byte, and `End` not called. -/
theorem C9_unfired_phase_zero_witness :
    (run Metric.fresh [.hook (.DNSStart 1), .hook (.DNSDone 2), .hook (.ConnectStart 3),
        .hook (.ConnectDone 4)]).TLSHandshake = 0 ∧
    (run Metric.fresh [.hook (.DNSStart 1), .hook (.DNSDone 2), .hook (.ConnectStart 3),
        .hook (.ConnectDone 4)]).Pretransfer = 0 ∧
    (run Metric.fresh [.hook (.DNSStart 1), .hook (.DNSDone 2), .hook (.ConnectStart 3),
        .hook (.ConnectDone 4)]).StartTransfer = 0 ∧
    (run Metric.fresh [.hook (.DNSStart 1), .hook (.DNSDone 2), .hook (.ConnectStart 3),
        .hook (.ConnectDone 4)]).Total = 0 ∧
    (run Metric.fresh [.hook (.DNSStart 1), .End 2]).DNSLookup = 0 ∧
    (run Metric.fresh [.hook (.DNSStart 1), .End 2]).Connect = 0 :=
  ⟨(C9_unfired_phase_zero _).2.2.1 (by simp),
   (C9_unfired_phase_zero _).2.2.2.1 (by simp) (by simp),
   ((C9_unfired_phase_zero _).2.2.2.2.1 (by simp)).2,
   ((C9_unfired_phase_zero _).2.2.2.2.2 (by simp)).2,
   ((C9_unfired_phase_zero _).1 (by simp)).1,
   ((C9_unfired_phase_zero _).2.1 (by simp)).2⟩

/-! ## Lemmas on the text of numbers and of joined strings -/

theorem digitChar_isDigit : ∀ k, k < 10 → (Nat.digitChar k).isDigit = true := by
  decide

theorem toDigitsCore_isDigit (fuel : Nat) :
    ∀ (n : Nat) (ds : List Char), (∀ c ∈ ds, c.isDigit = true) →
      ∀ c ∈ Nat.toDigitsCore 10 fuel n ds, c.isDigit = true := by
  induction fuel with
  | zero => intro n ds hds c hc; exact hds c (by simpa [Nat.toDigitsCore] using hc)
  | succ fuel ih =>
    intro n ds hds c hc
    have hcons : ∀ x ∈ Nat.digitChar (n % 10) :: ds, x.isDigit = true := by
      intro x hx
      rcases List.mem_cons.mp hx with rfl | hx
      · exact digitChar_isDigit _ (Nat.mod_lt _ (by decide))
      · exact hds x hx
    simp only [Nat.toDigitsCore] at hc
    split_ifs at hc
    · exact hcons c hc
    · exact ih _ _ hcons c hc

/-- The text of `%d` consists of decimal digits and, possibly, a minus sign. -/
theorem fmtD_chars (n : Int) : ∀ c ∈ (fmtD n).data, c = '-' ∨ c.isDigit = true := by
  have hnat : ∀ (k : Nat), ∀ c ∈ (Nat.repr k).data, c.isDigit = true := by
    intro k c hc
    exact toDigitsCore_isDigit _ k [] (by simp) c (by simpa [Nat.repr, Nat.toDigits] using hc)
  intro c hc
  cases n with
  | ofNat k => exact Or.inr (hnat k c hc)
  | negSucc k =>
    have hc2 : c ∈ ("-" ++ Nat.repr (k + 1)).data := hc
    rw [String.data_append] at hc2
    rcases List.mem_append.mp hc2 with h | h
    · left; simpa using h
    · exact Or.inr (hnat _ c h)

theorem fmtD_no_newline (n : Int) : '\n' ∉ (fmtD n).data := by
  intro h
  rcases fmtD_chars n _ h with h | h
  · exact absurd h (by decide)
  · exact absurd h (by decide)

theorem fmtDWidth_no_newline (w : Nat) (n : Int) : '\n' ∉ (fmtDWidth w n).data := by
  intro h
  simp only [fmtDWidth, String.data_append, List.mem_append] at h
  rcases h with h | h
  · exact absurd (List.eq_of_mem_replicate h) (by decide)
  · exact fmtD_no_newline n h

/-- The characters of a joined string come from the separator or from an element. -/
theorem intercalate_go_chars (sep : String) :
    ∀ (l : List String) (acc : String) (c : Char),
      c ∈ (String.intercalate.go acc sep l).data →
        c ∈ acc.data ∨ c ∈ sep.data ∨ ∃ s ∈ l, c ∈ s.data := by
  intro l
  induction l with
  | nil => intro acc c h; exact Or.inl (by simpa [String.intercalate.go] using h)
  | cons a as ih =>
    intro acc c h
    simp only [String.intercalate.go] at h
    rcases ih _ c h with h | h | ⟨s, hs, h⟩
    · simp only [String.data_append, List.mem_append] at h
      rcases h with (h | h) | h
      · exact Or.inl h
      · exact Or.inr (Or.inl h)
      · exact Or.inr (Or.inr ⟨a, List.mem_cons_self a as, h⟩)
    · exact Or.inr (Or.inl h)
    · exact Or.inr (Or.inr ⟨s, List.mem_cons_of_mem a hs, h⟩)

theorem intercalate_chars (sep : String) (l : List String) (c : Char)
    (h : c ∈ (sep.intercalate l).data) : c ∈ sep.data ∨ ∃ s ∈ l, c ∈ s.data := by
  cases l with
  | nil => simp [String.intercalate] at h
  | cons a as =>
    simp only [String.intercalate] at h
    rcases intercalate_go_chars sep as a c h with h | h | ⟨s, hs, h⟩
    · exact Or.inr ⟨a, List.mem_cons_self a as, h⟩
    · exact Or.inl h
    · exact Or.inr ⟨s, List.mem_cons_of_mem a hs, h⟩

/-! ## C7: the verbose report -/

set_option maxRecDepth 100000 in
/-- C7: with the verb `v` and the flag `+`, `Format` writes one string: the ten rows of the
report in the fixed order, each a label with its padding, the count of milliseconds of the
field of the row and " ms", each followed by a newline and none holding a newline inside. The
count is the duration divided by one millisecond, truncated toward zero, which is the floor for
a duration that is not negative; it is right-aligned to the width 4 at least. With the ten
fields at 100 ms the text is the text the test expects. -/
theorem C7_verbose_report (m : Metric) (range : List (String × Int) → List (String × Int)) :
    m.Format true 'v' range
      = [String.join ((verboseRows m).map (fun row => verboseLine row ++ "\n"))] ∧
    (verboseRows m).length = 10 ∧
    (∀ row ∈ verboseRows m, '\n' ∉ (verboseLine row).data) ∧
    (∀ d : Int, millis d = Int.tdiv d 1000000 ∧ (0 ≤ d → millis d = d / 1000000)) ∧
    (∀ n : Int, (fmtDWidth 4 n).length = max 4 (fmtD n).length ∧
      fmtDWidth 4 n = String.mk (List.replicate (4 - (fmtD n).length) ' ') ++ fmtD n) ∧
    testMetric.Format true 'v' range = [testWant] := by
  refine ⟨?_, rfl, ?_, ?_, ?_, by rfl⟩
  · simp [Metric.Format, verboseRows, verboseLine, String.join, String.append_assoc]
  · intro row hrow h
    simp only [verboseLine, String.data_append, List.mem_append] at h
    rcases h with (h | h) | h
    · simp only [verboseRows, List.mem_cons, List.mem_singleton, List.not_mem_nil,
        or_false] at hrow
      rcases hrow with rfl | rfl | rfl | rfl | rfl | rfl | rfl | rfl | rfl | rfl <;>
        (dsimp only at h; exact absurd h (by decide))
    · exact fmtDWidth_no_newline 4 _ h
    · exact absurd h (by decide)
  · intro d
    refine ⟨rfl, fun hd => ?_⟩
    simp only [millis, Millisecond]
    exact Int.tdiv_eq_ediv hd (by decide)
  · intro n
    refine ⟨?_, rfl⟩
    simp only [fmtDWidth, String.length_append, String.length_mk, List.length_replicate]
    omega

/-- Witness of C7: the rows of the report of the test Metric and a duration of 1.5 ms. -/
theorem C7_verbose_report_witness :
    '\n' ∉ (verboseLine ("Total:          ", ms 100)).data ∧ millis 1500000 = 1500000 / 1000000 :=
  ⟨(C7_verbose_report testMetric id).2.2.1 ("Total:          ", ms 100) (by simp [verboseRows, testMetric]),
   ((C7_verbose_report testMetric id).2.2.2.1 1500000).2 (by decide)⟩

/-! ## C8: the compact form -/

/-- The entries of `durations()`: their keys are the ten names, each once, and indexing the map
by the key of an entry gives the value of the entry. -/
theorem durations_entries (m : Metric) :
    mapKeys m.durations = tenNames ∧ tenNames.Nodup ∧
    ∀ e ∈ m.durations, mapGet m.durations e.1 = some e.2 ∧ '\n' ∉ e.1.data := by
  refine ⟨rfl, by decide, ?_⟩
  intro e he
  simp only [Metric.durations, List.mem_cons, List.mem_singleton, List.not_mem_nil,
    or_false] at he
  rcases he with rfl | rfl | rfl | rfl | rfl | rfl | rfl | rfl | rfl | rfl <;>
    exact ⟨by simp [mapGet, Metric.durations], by dsimp only; decide⟩

/-- C8: with the verb `s`, whatever the order in which the map is visited, `Format` writes one
string with no newline in it: for some ordering of the entries of `durations()`, whose keys
are the ten names, each exactly once, it is the strings "Name: N ms" joined by a comma and a
space, N being the count of milliseconds of the value `durations()` gives for the name. -/
theorem C8_compact_line (m : Metric) (range : List (String × Int) → List (String × Int))
    (hrange : IsRange range) :
    ∃ entries : List (String × Int),
      entries.Perm m.durations ∧
      (entries.map Prod.fst).Perm tenNames ∧ (entries.map Prod.fst).Nodup ∧
      (∀ e ∈ entries, mapGet m.durations e.1 = some e.2) ∧
      m.Format false 's' range
        = [", ".intercalate (entries.map (fun e => e.1 ++ ": " ++ fmtD (millis e.2) ++ " ms"))] ∧
      ∀ out ∈ m.Format false 's' range, '\n' ∉ out.data := by
  have hd := durations_entries m
  have hperm : (range m.durations).Perm m.durations := hrange m.durations
  have hkeys : ((range m.durations).map Prod.fst).Perm tenNames := by
    have h := hperm.map Prod.fst
    rw [← hd.1]
    exact h
  have hfmt : m.Format false 's' range
      = [", ".intercalate
          ((range m.durations).map (fun e => e.1 ++ ": " ++ fmtD (millis e.2) ++ " ms"))] := by
    simp [Metric.Format, Metric.compact]
  refine ⟨range m.durations, hperm, hkeys, (hkeys.nodup_iff).2 hd.2.1, ?_, hfmt, ?_⟩
  · intro e he
    exact (hd.2.2 e (hperm.mem_iff.1 he)).1
  · intro out hout hc
    rw [hfmt, List.mem_singleton] at hout
    subst hout
    rcases intercalate_chars _ _ _ hc with h | ⟨s, hs, h⟩
    · exact absurd h (by decide)
    · obtain ⟨e, he, rfl⟩ := List.mem_map.1 hs
      simp only [String.data_append, List.mem_append] at h
      rcases h with ((h | h) | h) | h
      · exact (hd.2.2 e (hperm.mem_iff.1 he)).2 h
      · exact absurd h (by decide)
      · exact fmtD_no_newline _ h
      · exact absurd h (by decide)

/-- Witness of C8: a `range` that visits the entries in the reverse of the order of the source. -/
theorem C8_compact_line_witness :
    IsRange List.reverse ∧
    ∃ entries : List (String × Int),
      entries.Perm testMetric.durations ∧
      (entries.map Prod.fst).Perm tenNames ∧ (entries.map Prod.fst).Nodup ∧
      (∀ e ∈ entries, mapGet testMetric.durations e.1 = some e.2) ∧
      testMetric.Format false 's' List.reverse
        = [", ".intercalate (entries.map (fun e => e.1 ++ ": " ++ fmtD (millis e.2) ++ " ms"))] ∧
      ∀ out ∈ testMetric.Format false 's' List.reverse, '\n' ∉ out.data :=
  ⟨fun d => List.reverse_perm d, C8_compact_line testMetric List.reverse (fun d => List.reverse_perm d)⟩

/-! ## C10: the orchestrator -/

/-- C10: `Do` returns the error of the dispatch, or of the draining of the body, with the
Metric as the hooks have populated it so far, and `End` is not called, so `ContentTransfer` and
`Total` are those the Result held, zero for a Result made by `NewMetricResult`; when both
succeed, `End` is called once, after the body is drained and closed, and `Do` returns the
finalized Metric with no error. -/
theorem C10_Do {Req Body Err : Type} (rs : Result Req) (client : Client Req Body Err)
    (now : Int) :
    (∀ evs err, client.Do rs.r = (evs, .error err) →
      (rs.Do client now).err = some err ∧
      (rs.Do client now).metric = trace rs.m evs ∧
      (rs.Do client now).calls = [.dispatch] ∧
      (rs.Do client now).metric.ContentTransfer = rs.m.ContentTransfer ∧
      (rs.Do client now).metric.Total = rs.m.Total) ∧
    (∀ evs body evs2 err, client.Do rs.r = (evs, .ok body) →
      client.Copy body = (evs2, some err) →
      (rs.Do client now).err = some err ∧
      (rs.Do client now).metric = trace rs.m (evs ++ evs2) ∧
      (rs.Do client now).calls = [.dispatch, .copy] ∧
      (rs.Do client now).metric.ContentTransfer = rs.m.ContentTransfer ∧
      (rs.Do client now).metric.Total = rs.m.Total) ∧
    (∀ evs body evs2, client.Do rs.r = (evs, .ok body) → client.Copy body = (evs2, none) →
      (rs.Do client now).err = none ∧
      (rs.Do client now).metric = (trace rs.m (evs ++ evs2)).End now ∧
      (rs.Do client now).calls = [.dispatch, .copy, .close, .End now]) ∧
    (∀ (r : Req) evs err, client.Do r = (evs, .error err) →
      ((NewMetricResult r).Do client now).metric.ContentTransfer = 0 ∧
      ((NewMetricResult r).Do client now).metric.Total = 0) ∧
    (∀ (r : Req) evs body evs2 err, client.Do r = (evs, .ok body) →
      client.Copy body = (evs2, some err) →
      ((NewMetricResult r).Do client now).metric.ContentTransfer = 0 ∧
      ((NewMetricResult r).Do client now).metric.Total = 0) := by
  have hframe : ∀ (m : Metric) (evs : List TraceEvent),
      (trace m evs).ContentTransfer = m.ContentTransfer ∧ (trace m evs).Total = m.Total := by
    intro m evs
    exact trace_invariant
      (fun x => x.ContentTransfer = m.ContentTransfer ∧ x.Total = m.Total) (fun _ => True)
      (fun x e _ hx => ⟨(apply_frame x e).2.2.2.2.2.1.1.trans hx.1,
        (apply_frame x e).2.2.2.2.2.1.2.trans hx.2⟩)
      evs m (fun _ _ => trivial) ⟨rfl, rfl⟩
  have herr : ∀ (rs : Result Req) evs err, client.Do rs.r = (evs, .error err) →
      rs.Do client now = { metric := trace rs.m evs, err := some err, calls := [.dispatch] } := by
    intro rs evs err h
    simp [Result.Do, h]
  have hcopy : ∀ (rs : Result Req) evs body evs2 err, client.Do rs.r = (evs, .ok body) →
      client.Copy body = (evs2, some err) →
      rs.Do client now = { metric := trace rs.m (evs ++ evs2), err := some err,
                           calls := [.dispatch, .copy] } := by
    intro rs evs body evs2 err h h2
    simp [Result.Do, h, h2, trace_append]
  refine ⟨?_, ?_, ?_, ?_, ?_⟩
  · intro evs err h
    have hdo : rs.Do client now
        = { metric := trace rs.m evs, err := some err, calls := [.dispatch] } := by
      simp [Result.Do, h]
    rw [hdo]
    exact ⟨rfl, rfl, rfl, (hframe _ _).1, (hframe _ _).2⟩
  · intro evs body evs2 err h h2
    have hdo : rs.Do client now
        = { metric := trace rs.m (evs ++ evs2), err := some err,
            calls := [.dispatch, .copy] } := by
      simp [Result.Do, h, h2, trace_append]
    rw [hdo]
    exact ⟨rfl, rfl, rfl, (hframe _ _).1, (hframe _ _).2⟩
  · intro evs body evs2 h h2
    have hdo : rs.Do client now
        = { metric := (trace rs.m (evs ++ evs2)).End now, err := none,
            calls := [.dispatch, .copy, .close, .End now] } := by
      simp [Result.Do, h, h2, trace_append]
    rw [hdo]
    exact ⟨rfl, rfl, rfl⟩

  · intro r evs err h
    rw [herr (NewMetricResult r) evs err h]
    exact ⟨(hframe _ _).1, (hframe _ _).2⟩
  · intro r evs body evs2 err h h2
    rw [hcopy (NewMetricResult r) evs body evs2 err h h2]
    exact ⟨(hframe _ _).1, (hframe _ _).2⟩

/-- Witness of C10: a dispatch that fails, a body that cannot be read, and a request that
succeeds and is finalized at the instant 9 ns. -/
theorem C10_Do_witness :
    ((NewMetricResult ()).Do failingClient 9).err = some "dial tcp: connection refused" ∧
    ((NewMetricResult ()).Do failingClient 9).metric.Total = 0 ∧
    ((NewMetricResult ()).Do brokenBodyClient 9).err = some "unexpected EOF" ∧
    ((NewMetricResult ()).Do brokenBodyClient 9).metric.Total = 0 ∧
    ((NewMetricResult ()).Do plainClient 9).err = none ∧
    ((NewMetricResult ()).Do plainClient 9).calls = [.dispatch, .copy, .close, .End 9] :=
  ⟨((C10_Do (NewMetricResult ()) failingClient 9).1 _ _ rfl).1,
   ((C10_Do (NewMetricResult ()) failingClient 9).2.2.2.1 () _ _ rfl).2,
   ((C10_Do (NewMetricResult ()) brokenBodyClient 9).2.1 _ _ _ _ rfl rfl).1,
   ((C10_Do (NewMetricResult ()) brokenBodyClient 9).2.2.2.2 () _ _ _ _ rfl rfl).2,
   ((C10_Do (NewMetricResult ()) plainClient 9).2.2.1 _ _ _ rfl rfl).1,
   ((C10_Do (NewMetricResult ()) plainClient 9).2.2.1 _ _ _ rfl rfl).2.2⟩

/-! ## C11: a second `Do` on the same Result -/

/-- C11 (as stated, refuted): after one call of `Do` on the Result made by `NewMetricResult`,
with a client that answers a plaintext request, the Metric returned carries the timestamps and
durations of the call (`dnsStart` is 1 ns, `Total` is 8 ns), but the Metric held by the Result
carries none of them: it is still the fresh Metric, and a second `Do` starts from it. -/
theorem C11_counterexample :
    ((NewMetricResult ()).callDo plainClient 9).2.metric.dnsStart = 1 ∧
    ((NewMetricResult ()).callDo plainClient 9).2.metric.Total = 8 ∧
    ((NewMetricResult ()).callDo plainClient 9).1.m.dnsStart = 0 ∧
    ((NewMetricResult ()).callDo plainClient 9).1.m.Total = 0 ∧
    ((NewMetricResult ()).callDo plainClient 9).1.m = Metric.fresh := by
  refine ⟨?_, ?_, rfl, rfl, rfl⟩ <;>
    simp [Result.callDo, Result.Do, plainClient, NewMetricResult, trace, TraceEvent.apply,
      withClientTrace.DNSStart, withClientTrace.DNSDone, withClientTrace.ConnectStart,
      withClientTrace.ConnectDone, withClientTrace.GotConn, withClientTrace.WroteRequest,
      withClientTrace.GotFirstResponseByte, Metric.End, Time.IsZero, Time.Sub, maxDuration,
      minDuration]

/-- C11 (amended): `Do` has a value receiver, so a call of `Do` leaves the Result of the
caller, and the Metric it holds, unchanged: the timestamps and durations recorded during the
call are in the returned Metric only. A second `Do` on the same Result, the client and the
clock behaving as in the first, starts from the same Metric and returns the same outcome; for a
Result made by `NewMetricResult` that Metric is the fresh one. `Do` does not reset the Metric
it starts from: what it returns is computed from the Metric the Result holds. -/
theorem C11_Do_value_receiver {Req Body Err : Type} (rs : Result Req)
    (client : Client Req Body Err) (now : Int) :
    (rs.callDo client now).1 = rs ∧
    ((rs.callDo client now).1.callDo client now).2 = (rs.callDo client now).2 ∧
    (∀ r : Req, ((NewMetricResult r).callDo client now).1.m = Metric.fresh) ∧
    (∀ evs err, client.Do rs.r = (evs, .error err) →
      (rs.callDo client now).2.metric = trace rs.m evs) ∧
    (∀ evs body evs2 err, client.Do rs.r = (evs, .ok body) →
      client.Copy body = (evs2, some err) →
      (rs.callDo client now).2.metric = trace rs.m (evs ++ evs2)) ∧
    (∀ evs body evs2, client.Do rs.r = (evs, .ok body) → client.Copy body = (evs2, none) →
      (rs.callDo client now).2.metric = (trace rs.m (evs ++ evs2)).End now) := by
  refine ⟨rfl, rfl, fun _ => rfl, ?_, ?_, ?_⟩
  · intro evs err h
    simp [Result.callDo, Result.Do, h]
  · intro evs body evs2 err h h2
    simp [Result.callDo, Result.Do, h, h2, trace_append]
  · intro evs body evs2 h h2
    simp [Result.callDo, Result.Do, h, h2, trace_append]

/-- Witness of C11: a Result that holds a Metric with `Total` at 5 ns, with the three clients:
the Metric returned is computed from the Metric held. -/
theorem C11_Do_value_receiver_witness :
    ((({ m := { Total := 5 }, r := () } : Result Unit).callDo failingClient 9).2.metric
      = trace { Total := 5 } [.DNSStart 1, .DNSDone 2]) ∧
    ((({ m := { Total := 5 }, r := () } : Result Unit).callDo brokenBodyClient 9).2.metric
      = trace { Total := 5 } ([.DNSStart 1, .DNSDone 2, .ConnectStart 3, .ConnectDone 4,
          .GotConn false, .WroteRequest 5, .GotFirstResponseByte 6] ++ [])) ∧
    ((({ m := { Total := 5 }, r := () } : Result Unit).callDo plainClient 9).2.metric
      = (trace { Total := 5 } ([.DNSStart 1, .DNSDone 2, .ConnectStart 3, .ConnectDone 4,
          .GotConn false, .WroteRequest 5, .GotFirstResponseByte 6] ++ [])).End 9) :=
  ⟨(C11_Do_value_receiver { m := { Total := 5 }, r := () } failingClient 9).2.2.2.1 _ _ rfl,
   (C11_Do_value_receiver { m := { Total := 5 }, r := () } brokenBodyClient 9).2.2.2.2.1
     _ _ _ _ rfl rfl,
   (C11_Do_value_receiver { m := { Total := 5 }, r := () } plainClient 9).2.2.2.2.2
     _ _ _ rfl rfl⟩

/-! ## C12: reading the measurements -/

/-- C12: a call of `durations()` leaves the Metric as it was, field by field, and a second
call returns a map with the same keys and the same value at every key as the first. -/
theorem C12_durations_pure (m : Metric) :
    m.callDurations.1 = m ∧
    m.callDurations.1.callDurations.1 = m ∧
    m.callDurations.1.callDurations.2 = m.callDurations.2 ∧
    mapKeys m.callDurations.1.callDurations.2 = mapKeys m.callDurations.2 ∧
    (∀ k, mapGet m.callDurations.1.callDurations.2 k = mapGet m.callDurations.2 k) ∧
    mapKeys m.callDurations.2 = tenNames :=
  ⟨rfl, rfl, rfl, rfl, fun _ => rfl, rfl⟩

/-! ## C13: the anchor `dnsStart` -/

/-- What one operation does to the anchor: an operation that is not one of `DNSStart`,
`ConnectStart`, `WroteRequest` leaves `dnsStart` and `tcpStart` alone; with a set reading,
every operation keeps `dnsStart` set and keeps "tcpStart set implies dnsStart set", and each
of the three sets `dnsStart` when that implication holds before it. -/
theorem anchor_step (m : Metric) (op : Op) :
    (op.isAnchor = false →
      (op.apply m).dnsStart = m.dnsStart ∧ (op.apply m).tcpStart = m.tcpStart) ∧
    (op.readingSet → m.dnsStart ≠ 0 → (op.apply m).dnsStart ≠ 0) ∧
    (op.readingSet → (m.tcpStart ≠ 0 → m.dnsStart ≠ 0) →
      ((op.apply m).tcpStart ≠ 0 → (op.apply m).dnsStart ≠ 0)) ∧
    (op.readingSet → op.isAnchor = true → (m.tcpStart ≠ 0 → m.dnsStart ≠ 0) →
      (op.apply m).dnsStart ≠ 0) := by
  cases op with
  | hook e =>
    cases e <;>
      simp only [Op.apply, Op.isAnchor, Op.readingSet, TraceEvent.readingSet, TraceEvent.apply,
        withClientTrace.DNSStart, withClientTrace.DNSDone, withClientTrace.ConnectStart,
        withClientTrace.ConnectDone, withClientTrace.TLSHandshakeStart,
        withClientTrace.TLSHandshakeDone, withClientTrace.GotConn,
        withClientTrace.WroteRequest, withClientTrace.GotFirstResponseByte, Time.IsZero] <;>
      (try split_ifs) <;> simp_all <;> tauto
  | End t =>
    simp only [Op.apply, Op.isAnchor, Op.readingSet, Metric.End]
    split_ifs <;> simp_all

/-- Once one of `DNSStart`, `ConnectStart`, `WroteRequest` has fired in a sequence with set
readings, started fresh, `dnsStart` is set. -/
theorem anchor_set (ops : List Op) (hset : ∀ op ∈ ops, op.readingSet)
    (h : ∃ op ∈ ops, op.isAnchor = true) : (run Metric.fresh ops).dnsStart ≠ 0 := by
  obtain ⟨a, ha, hanch⟩ := h
  obtain ⟨xs, ys, rfl⟩ := List.append_of_mem ha
  have hxs : ∀ op ∈ xs, op.readingSet := fun op hop => hset op (List.mem_append_left _ hop)
  have hys : ∀ op ∈ ys, op.readingSet :=
    fun op hop => hset op (List.mem_append_right _ (List.mem_cons_of_mem _ hop))
  have hP : (run Metric.fresh xs).tcpStart ≠ 0 → (run Metric.fresh xs).dnsStart ≠ 0 :=
    run_invariant (fun m => m.tcpStart ≠ 0 → m.dnsStart ≠ 0) Op.readingSet
      (fun m op ho hm => (anchor_step m op).2.2.1 ho hm) xs _ hxs (fun h0 => absurd rfl h0)
  have ha2 : (a.apply (run Metric.fresh xs)).dnsStart ≠ 0 :=
    (anchor_step _ a).2.2.2 (hset a ha) hanch hP
  have hcons : xs ++ a :: ys = (xs ++ [a]) ++ ys := by simp
  rw [hcons, run_append, run_append]
  exact run_invariant (fun m => m.dnsStart ≠ 0) Op.readingSet
    (fun m op ho hm => (anchor_step m op).2.1 ho hm) ys _ hys ha2

/-- C13: in every state reached from a fresh Metric by hooks and `End` with set clock
readings, a set `tcpStart` implies a set `dnsStart`; `dnsStart` is set as soon as one of
`DNSStart`, `ConnectStart`, `WroteRequest` has fired, and is unset before: whichever of the
three fires first populates it with its reading. Hence, after one of them, the checkpoint a
later `ConnectDone`, `TLSHandshakeDone`, `GotFirstResponseByte` or `End` computes is the
difference of its reading and a set `dnsStart`. -/
theorem C13_anchor (ops : List Op) (hset : ∀ op ∈ ops, op.readingSet) :
    ((run Metric.fresh ops).tcpStart ≠ 0 → (run Metric.fresh ops).dnsStart ≠ 0) ∧
    ((∃ op ∈ ops, op.isAnchor = true) → (run Metric.fresh ops).dnsStart ≠ 0) ∧
    ((∀ op ∈ ops, op.isAnchor = false) →
      (run Metric.fresh ops).dnsStart = 0 ∧
      ∀ t, (withClientTrace.DNSStart (run Metric.fresh ops) t).dnsStart = t ∧
        (withClientTrace.ConnectStart (run Metric.fresh ops) t).dnsStart = t ∧
        (withClientTrace.WroteRequest (run Metric.fresh ops) t).dnsStart = t) ∧
    ((∃ op ∈ ops, op.isAnchor = true) → ∀ t,
      (withClientTrace.ConnectDone (run Metric.fresh ops) t).Connect
        = Time.Sub t (run Metric.fresh ops).dnsStart ∧
      (withClientTrace.TLSHandshakeDone (run Metric.fresh ops) t).Pretransfer
        = Time.Sub t (run Metric.fresh ops).dnsStart ∧
      (withClientTrace.GotFirstResponseByte (run Metric.fresh ops) t).StartTransfer
        = Time.Sub t (run Metric.fresh ops).dnsStart ∧
      ((run Metric.fresh ops).End t).Total = Time.Sub t (run Metric.fresh ops).dnsStart) := by
  refine ⟨?_, anchor_set ops hset, fun h => ?_, fun h t => ?_⟩
  · exact run_invariant (fun m => m.tcpStart ≠ 0 → m.dnsStart ≠ 0) Op.readingSet
      (fun m op ho hm => (anchor_step m op).2.2.1 ho hm) ops _ hset (fun h0 => absurd rfl h0)
  · have hz : (run Metric.fresh ops).dnsStart = 0 ∧ (run Metric.fresh ops).tcpStart = 0 :=
      run_invariant (fun m => m.dnsStart = 0 ∧ m.tcpStart = 0) (fun op => op.isAnchor = false)
        (fun m op ho hm => ⟨((anchor_step m op).1 ho).1.trans hm.1,
          ((anchor_step m op).1 ho).2.trans hm.2⟩) ops _ h ⟨rfl, rfl⟩
    refine ⟨hz.1, fun t => ⟨rfl, ?_, ?_⟩⟩
    · simp [withClientTrace.ConnectStart, Time.IsZero, hz.1]
    · simp only [withClientTrace.WroteRequest, Time.IsZero, hz.1, hz.2]
      split_ifs <;> simp_all
  · have hd := anchor_set ops hset h
    refine ⟨rfl, rfl, rfl, ?_⟩
    simp [Metric.End, Time.IsZero, hd]

/-- Witness of C13: a connection without name resolution, with set readings: `ConnectStart`
populates `dnsStart`, and `End` measures `Total` from it. -/
theorem C13_anchor_witness :
    (run Metric.fresh [.hook (.ConnectStart 3), .hook (.ConnectDone 4)]).dnsStart ≠ 0 ∧
    ((run Metric.fresh [.hook (.ConnectStart 3), .hook (.ConnectDone 4)]).End 9).Total
      = Time.Sub 9 (run Metric.fresh [.hook (.ConnectStart 3), .hook (.ConnectDone 4)]).dnsStart ∧
    (run Metric.fresh [.hook (.GotConn false)]).dnsStart = 0 :=
  ⟨(C13_anchor [.hook (.ConnectStart 3), .hook (.ConnectDone 4)]
      (by simp [Op.readingSet, TraceEvent.readingSet])).2.1 (by simp [Op.isAnchor]),
   ((C13_anchor [.hook (.ConnectStart 3), .hook (.ConnectDone 4)]
      (by simp [Op.readingSet, TraceEvent.readingSet])).2.2.2 (by simp [Op.isAnchor]) 9).2.2.2,
   ((C13_anchor [.hook (.GotConn false)]
      (by simp [Op.readingSet, TraceEvent.readingSet])).2.2.1 (by simp [Op.isAnchor])).1⟩

/-! ## C14: `ConnectStart` without name resolution -/

/-- `ConnectStart` on an unset `dnsStart`, then `ConnectDone`: both durations are the
difference of the two readings. -/
theorem connect_pair (s : Metric) (h : s.dnsStart = 0) (t2 t3 : Int) :
    (withClientTrace.ConnectDone (withClientTrace.ConnectStart s t2) t3).TCPConnection
      = Time.Sub t3 t2 ∧
    (withClientTrace.ConnectDone (withClientTrace.ConnectStart s t2) t3).Connect
      = Time.Sub t3 t2 := by
  simp [withClientTrace.ConnectStart, withClientTrace.ConnectDone, Time.IsZero, h]

/-- C14 (as stated, refuted): on a fresh Metric on which no DNS hook fires and `ConnectStart`
is followed by `ConnectDone`, `Connect` and `TCPConnection` differ when `dnsStart` was already
set by an earlier `WroteRequest` or an earlier `ConnectStart` (4 ns against 2 ns), and when a
second connection attempt follows (6 ns against 3 ns), since `ConnectStart` anchors `dnsStart`
only when it is unset and `ConnectDone` measures `Connect` from `dnsStart`. -/
theorem C14_counterexample :
    ((connectRun [.hook (.WroteRequest 1)] 3 5 []).Connect = 4 ∧
      (connectRun [.hook (.WroteRequest 1)] 3 5 []).TCPConnection = 2) ∧
    ((connectRun [.hook (.ConnectStart 1)] 3 5 []).Connect = 4 ∧
      (connectRun [.hook (.ConnectStart 1)] 3 5 []).TCPConnection = 2) ∧
    ((connectRun [] 3 5 [.hook (.ConnectStart 6), .hook (.ConnectDone 9)]).Connect = 6 ∧
      (connectRun [] 3 5 [.hook (.ConnectStart 6), .hook (.ConnectDone 9)]).TCPConnection = 3) := by
  refine ⟨⟨?_, ?_⟩, ⟨?_, ?_⟩, ⟨?_, ?_⟩⟩ <;>
    simp [connectRun, run, Op.apply, TraceEvent.apply, withClientTrace.ConnectStart,
      withClientTrace.ConnectDone, withClientTrace.WroteRequest, Metric.fresh, Time.IsZero,
      Time.Sub, maxDuration, minDuration]

/-- C14 (amended): `ConnectStart` at `t` sets `tcpStart = t`; with `dnsStart` unset it also
sets `dnsStart = dnsDone = t` and nothing else, with `dnsStart` set it changes nothing else.
So on a fresh Metric, when `ConnectStart` fires before any of `DNSStart`, another
`ConnectStart` and `WroteRequest`, is directly followed by `ConnectDone`, and no other
`ConnectDone` comes after, `Connect` and `TCPConnection` are the same difference of the two
readings; and `DNSLookup` and `NameLookup` are zero when no `DNSDone` fires. -/
theorem C14_ConnectStart (m : Metric) (t : Int) (pre post : List Op) (t2 t3 : Int) :
    (withClientTrace.ConnectStart m t).tcpStart = t ∧
    (m.dnsStart = 0 →
      withClientTrace.ConnectStart m t = { m with tcpStart := t, dnsStart := t, dnsDone := t }) ∧
    (m.dnsStart ≠ 0 →
      withClientTrace.ConnectStart m t = { m with tcpStart := t } ∧
      (withClientTrace.ConnectStart m t).dnsStart = m.dnsStart ∧
      (withClientTrace.ConnectStart m t).dnsDone = m.dnsDone) ∧
    ((∀ op ∈ pre, op.isAnchor = false) → (∀ u, Op.hook (.ConnectDone u) ∉ post) →
      (connectRun pre t2 t3 post).Connect = (connectRun pre t2 t3 post).TCPConnection ∧
      (connectRun pre t2 t3 post).TCPConnection = Time.Sub t3 t2) ∧
    ((∀ u, Op.hook (.DNSDone u) ∉ pre) → (∀ u, Op.hook (.DNSDone u) ∉ post) →
      (connectRun pre t2 t3 post).DNSLookup = 0 ∧ (connectRun pre t2 t3 post).NameLookup = 0) := by
  refine ⟨?_, fun h => ?_, fun h => ?_, fun hpre hpost => ?_, fun hpre hpost => ?_⟩
  · simp only [withClientTrace.ConnectStart]; split_ifs <;> rfl
  · simp [withClientTrace.ConnectStart, Time.IsZero, h]
  · simp [withClientTrace.ConnectStart, Time.IsZero, h]
  · have hz : (run Metric.fresh pre).dnsStart = 0 :=
      run_invariant (fun m => m.dnsStart = 0) (fun op => op.isAnchor = false)
        (fun m op ho hm => ((anchor_step m op).1 ho).1.trans hm) pre _ hpre rfl
    have hboth : (run (run Metric.fresh pre)
          [.hook (.ConnectStart t2), .hook (.ConnectDone t3)]).TCPConnection = Time.Sub t3 t2 ∧
        (run (run Metric.fresh pre)
          [.hook (.ConnectStart t2), .hook (.ConnectDone t3)]).Connect = Time.Sub t3 t2 :=
      connect_pair _ hz t2 t3
    have hfin : (connectRun pre t2 t3 post).TCPConnection = Time.Sub t3 t2 ∧
        (connectRun pre t2 t3 post).Connect = Time.Sub t3 t2 := by
      rw [connectRun, run_append, run_append]
      exact run_invariant
        (fun m => m.TCPConnection = Time.Sub t3 t2 ∧ m.Connect = Time.Sub t3 t2)
        (fun op => ∀ u, op ≠ .hook (.ConnectDone u))
        (fun m op ho hm => ⟨((op_frame m op).2.1 ho).1.trans hm.1,
          ((op_frame m op).2.1 ho).2.trans hm.2⟩)
        post _ (ne_of_not_mem hpost) hboth
    exact ⟨hfin.2.trans hfin.1.symm, hfin.1⟩
  · have hall : ∀ op ∈ pre ++ [Op.hook (.ConnectStart t2), Op.hook (.ConnectDone t3)] ++ post,
        ∀ u, op ≠ .hook (.DNSDone u) := by
      intro op hop u
      simp only [List.mem_append, List.mem_cons, List.mem_singleton, List.not_mem_nil,
        or_false] at hop
      rcases hop with (hop | hop | hop) | hop
      · exact ne_of_not_mem hpre op hop u
      · rw [hop]; simp
      · rw [hop]; simp
      · exact ne_of_not_mem hpost op hop u
    exact run_invariant (fun m => m.DNSLookup = 0 ∧ m.NameLookup = 0)
      (fun op => ∀ u, op ≠ .hook (.DNSDone u))
      (fun m op ho hm => ⟨((op_frame m op).1 ho).1.trans hm.1, ((op_frame m op).1 ho).2.trans hm.2⟩)
      _ _ hall ⟨rfl, rfl⟩

/-- Witness of C14: a plaintext request to a literal address, with no name resolution. -/
theorem C14_ConnectStart_witness :
    (connectRun [] 3 5 [.hook (.GotConn false), .hook (.WroteRequest 6)]).Connect
      = (connectRun [] 3 5 [.hook (.GotConn false), .hook (.WroteRequest 6)]).TCPConnection ∧
    (connectRun [] 3 5 [.hook (.GotConn false), .hook (.WroteRequest 6)]).TCPConnection
      = Time.Sub 5 3 ∧
    (connectRun [] 3 5 [.hook (.GotConn false), .hook (.WroteRequest 6)]).DNSLookup = 0 ∧
    (withClientTrace.ConnectStart Metric.fresh 3).dnsStart = 3 ∧
    (withClientTrace.ConnectStart { dnsStart := 1, dnsDone := 2 } 3).dnsStart = 1 :=
  ⟨((C14_ConnectStart Metric.fresh 3 [] [.hook (.GotConn false), .hook (.WroteRequest 6)] 3 5).2.2.2.1
      (by simp) (by simp)).1,
   ((C14_ConnectStart Metric.fresh 3 [] [.hook (.GotConn false), .hook (.WroteRequest 6)] 3 5).2.2.2.1
      (by simp) (by simp)).2,
   ((C14_ConnectStart Metric.fresh 3 [] [.hook (.GotConn false), .hook (.WroteRequest 6)] 3 5).2.2.2.2
      (by simp) (by simp)).1,
   by rw [(C14_ConnectStart Metric.fresh 3 [] [] 0 0).2.1 rfl],
   ((C14_ConnectStart { dnsStart := 1, dnsDone := 2 } 3 [] [] 0 0).2.2.1 (by decide)).2.1⟩

/-! ## C15: no hook before the request is written -/

/-- C15: on a fresh Metric, `WroteRequest` at `t6`, `GotFirstResponseByte` at `t7` and `End` at
`t8` leave `dnsStart`, `dnsDone`, `tcpStart`, `tcpDone` equal to `serverStart = t6`, `tlsStart`
and `tlsDone` unset, and the flags unset; `DNSLookup`, `TCPConnection`, `TLSHandshake`,
`NameLookup`, `Connect` and `Pretransfer` zero; `StartTransfer = ServerProcessing`, the
difference (`Time.Sub`) `t7 - t6`; and, `t6` being a set instant as a reading of the clock is,
`Total` the difference `t8 - t6`. The differences are exact when the readings are
non-decreasing and span no more than the largest Duration. -/
theorem C15_bare_run (t6 t7 t8 : Int) :
    ((bareRun t6 t7 t8).dnsStart = t6 ∧ (bareRun t6 t7 t8).dnsDone = t6 ∧
      (bareRun t6 t7 t8).tcpStart = t6 ∧ (bareRun t6 t7 t8).tcpDone = t6 ∧
      (bareRun t6 t7 t8).serverStart = t6 ∧ (bareRun t6 t7 t8).tlsStart = 0 ∧
      (bareRun t6 t7 t8).tlsDone = 0 ∧ (bareRun t6 t7 t8).isTLS = false ∧
      (bareRun t6 t7 t8).isReused = false) ∧
    ((bareRun t6 t7 t8).DNSLookup = 0 ∧ (bareRun t6 t7 t8).TCPConnection = 0 ∧
      (bareRun t6 t7 t8).TLSHandshake = 0 ∧ (bareRun t6 t7 t8).NameLookup = 0 ∧
      (bareRun t6 t7 t8).Connect = 0 ∧ (bareRun t6 t7 t8).Pretransfer = 0) ∧
    ((bareRun t6 t7 t8).StartTransfer = (bareRun t6 t7 t8).ServerProcessing ∧
      (bareRun t6 t7 t8).ServerProcessing = Time.Sub t7 t6) ∧
    (t6 ≠ 0 → (bareRun t6 t7 t8).Total = Time.Sub t8 t6) ∧
    (t6 ≠ 0 → t6 ≤ t7 ∧ t7 ≤ t8 ∧ t8 - t6 ≤ maxDuration →
      (bareRun t6 t7 t8).StartTransfer = t7 - t6 ∧ (bareRun t6 t7 t8).ServerProcessing = t7 - t6 ∧
      (bareRun t6 t7 t8).Total = t8 - t6) := by
  have hmin : minDuration ≤ -1 := by decide
  by_cases h6 : t6 = 0
  · subst h6
    simp [bareRun, run, Op.apply, TraceEvent.apply, withClientTrace.WroteRequest,
      withClientTrace.GotFirstResponseByte, Metric.End, Metric.fresh, Time.IsZero,
      Time.Sub_self]
  · simp only [bareRun, run, List.foldl, Op.apply, TraceEvent.apply,
      withClientTrace.WroteRequest, withClientTrace.GotFirstResponseByte, Metric.End,
      Metric.fresh, Time.IsZero, h6, Time.Sub_self, decide_True, decide_False, if_true,
      if_false, Bool.and_self, Bool.false_eq_true, and_self, true_and, ne_eq, not_false_eq_true,
      forall_const]
    intro h
    refine ⟨?_, ?_, ?_⟩ <;> exact Time.Sub_exact (by omega) (by omega)

/-- Witness of C15: the readings 1 ns, 2 ns, 4 ns. -/
theorem C15_bare_run_witness :
    (bareRun 1 2 4).Total = Time.Sub 4 1 ∧ (bareRun 1 2 4).StartTransfer = 2 - 1 ∧
    (bareRun 1 2 4).Total = 4 - 1 :=
  ⟨(C15_bare_run 1 2 4).2.2.2.1 (by decide),
   ((C15_bare_run 1 2 4).2.2.2.2 (by decide) (by decide)).1,
   ((C15_bare_run 1 2 4).2.2.2.2 (by decide) (by decide)).2.2⟩

/-! ## C16: the flags -/

/-- C16: `GotConn` with `reused = true` sets `isReused` and nothing else, with
`reused = false` it leaves the Metric as it is. No hook and no call of `End` takes `isTLS` or
`isReused` from true to false; only `TLSHandshakeStart` takes `isTLS` to true, and only
`GotConn` with `reused = true` takes `isReused` to true. -/
theorem C16_flags (m : Metric) (op : Op) :
    withClientTrace.GotConn m true = { m with isReused := true } ∧
    withClientTrace.GotConn m false = m ∧
    (m.isReused = true → withClientTrace.GotConn m false = m ∧
      (withClientTrace.GotConn m true).isReused = true) ∧
    (m.isTLS = true → (op.apply m).isTLS = true) ∧
    (m.isReused = true → (op.apply m).isReused = true) ∧
    (m.isTLS = false → (op.apply m).isTLS = true → ∃ t, op = .hook (.TLSHandshakeStart t)) ∧
    (m.isReused = false → (op.apply m).isReused = true → op = .hook (.GotConn true)) := by
  refine ⟨rfl, rfl, fun _ => ⟨rfl, rfl⟩, ?_, ?_, ?_, ?_⟩ <;>
    (cases op with
     | hook e =>
       cases e <;>
         simp only [Op.apply, TraceEvent.apply, withClientTrace.DNSStart,
           withClientTrace.DNSDone, withClientTrace.ConnectStart, withClientTrace.ConnectDone,
           withClientTrace.TLSHandshakeStart, withClientTrace.TLSHandshakeDone,
           withClientTrace.GotConn, withClientTrace.WroteRequest,
           withClientTrace.GotFirstResponseByte] <;>
         (try split_ifs) <;> simp_all
     | End t =>
       simp only [Op.apply, Metric.End]
       split_ifs <;> simp_all)

/-- Witness of C16: `GotConn` on a Metric whose connection was already reported reused, and
the hooks that set the two flags. -/
theorem C16_flags_witness :
    withClientTrace.GotConn { isReused := true } false = { isReused := true } ∧
    ((Op.hook (.DNSStart 1)).apply { isTLS := true }).isTLS = true ∧
    ((Op.End 1).apply { isReused := true }).isReused = true ∧
    (∃ t, Op.hook (.TLSHandshakeStart 4) = Op.hook (.TLSHandshakeStart t)) ∧
    Op.hook (.GotConn true) = Op.hook (.GotConn true) :=
  ⟨((C16_flags { isReused := true } (.End 1)).2.2.1 rfl).1,
   (C16_flags { isTLS := true } (.hook (.DNSStart 1))).2.2.2.1 rfl,
   (C16_flags { isReused := true } (.End 1)).2.2.2.2.1 rfl,
   (C16_flags Metric.fresh (.hook (.TLSHandshakeStart 4))).2.2.2.2.2.1 rfl rfl,
   (C16_flags Metric.fresh (.hook (.GotConn true))).2.2.2.2.2.2 rfl rfl⟩

/-! ## C17: `Total` decomposes at the first response byte -/

/-- An operation that does not rewrite `dnsStart` keeps `StartTransfer` the difference of
`transferStart` and `dnsStart`. -/
theorem startTransfer_step (s : Metric) (op : Op)
    (hkeep : (op.apply s).dnsStart = s.dnsStart)
    (hs : s.StartTransfer = Time.Sub s.transferStart s.dnsStart) :
    (op.apply s).StartTransfer = Time.Sub (op.apply s).transferStart (op.apply s).dnsStart := by
  rw [hkeep]
  cases op with
  | hook e =>
    cases e <;>
      simp only [Op.apply, TraceEvent.apply, withClientTrace.DNSStart, withClientTrace.DNSDone,
        withClientTrace.ConnectStart, withClientTrace.ConnectDone,
        withClientTrace.TLSHandshakeStart, withClientTrace.TLSHandshakeDone,
        withClientTrace.GotConn, withClientTrace.WroteRequest,
        withClientTrace.GotFirstResponseByte] <;>
      (try split_ifs) <;> simp_all
  | End t =>
    simp only [Op.apply, Metric.End]
    split_ifs <;> simp_all

/-- Along operations that do not rewrite `dnsStart`, `dnsStart` stays and `StartTransfer`
stays the difference of `transferStart` and `dnsStart`. -/
theorem keepsAnchor_run (ops : List Op) :
    ∀ s : Metric, keepsAnchor s ops →
      s.StartTransfer = Time.Sub s.transferStart s.dnsStart →
      (run s ops).dnsStart = s.dnsStart ∧
      (run s ops).StartTransfer = Time.Sub (run s ops).transferStart (run s ops).dnsStart := by
  induction ops with
  | nil => intro s _ hs; exact ⟨rfl, hs⟩
  | cons op ops ih =>
    intro s hkeep hs
    have h := ih (op.apply s) hkeep.2 (startTransfer_step s op hkeep.1 hs)
    exact ⟨h.1.trans hkeep.1, h.2⟩

/-- The final state of the plaintext run, for the fields `End` and the checkpoints use. -/
theorem plainRun_eq (t0 t1 t2 t3 t6 t7 t8 : Int) (h0 : t0 ≠ 0) :
    plainRun t0 t1 t2 t3 t6 t7 t8 =
      { DNSLookup := Time.Sub t1 t0, TCPConnection := Time.Sub t3 t2, TLSHandshake := 0,
        ServerProcessing := Time.Sub t7 t6, ContentTransfer := Time.Sub t8 t7,
        NameLookup := Time.Sub t1 t0, Connect := Time.Sub t3 t0, Pretransfer := Time.Sub t3 t0,
        StartTransfer := Time.Sub t7 t0, Total := Time.Sub t8 t0,
        dnsStart := t0, dnsDone := t1, tcpStart := t2, tcpDone := t3, tlsStart := 0,
        tlsDone := 0, serverStart := t6, serverDone := t7, transferStart := t7,
        transferDone := t8, isTLS := false, isReused := false } := by
  simp [plainRun, run, plainSequence, Op.apply, TraceEvent.apply, withClientTrace.DNSStart,
    withClientTrace.DNSDone, withClientTrace.ConnectStart, withClientTrace.ConnectDone,
    withClientTrace.GotConn, withClientTrace.WroteRequest,
    withClientTrace.GotFirstResponseByte, Metric.End, Metric.fresh, Time.IsZero, h0,
    Time.Sub_self]

/-- The final state of the run on a reused connection. -/
theorem reusedRun_eq (t6 t7 t8 : Int) (h6 : t6 ≠ 0) :
    reusedRun t6 t7 t8 =
      { DNSLookup := 0, TCPConnection := 0, TLSHandshake := 0,
        ServerProcessing := Time.Sub t7 t6, ContentTransfer := Time.Sub t8 t7,
        NameLookup := 0, Connect := 0, Pretransfer := 0,
        StartTransfer := Time.Sub t7 t6, Total := Time.Sub t8 t6,
        dnsStart := t6, dnsDone := t6, tcpStart := t6, tcpDone := t6, tlsStart := t6,
        tlsDone := t6, serverStart := t6, serverDone := t7, transferStart := t7,
        transferDone := t8, isTLS := false, isReused := true } := by
  simp [reusedRun, run, reusedSequence, Op.apply, TraceEvent.apply, withClientTrace.GotConn,
    withClientTrace.WroteRequest, withClientTrace.GotFirstResponseByte, Metric.End,
    Metric.fresh, Time.IsZero, h6, Time.Sub_self]

/-- C17: on a Metric with `dnsStart` set, when `GotFirstResponseByte` fires, then operations
that do not rewrite `dnsStart`, then `End`, and the three differences (from `dnsStart` to the
first response byte, from there to `End`, from `dnsStart` to `End`) are in the range of
Duration, the result has `Total = StartTransfer + ContentTransfer`, measured from the
`dnsStart` of the start. It holds for the TLS, the plaintext and the reused-connection
sequences, with a set first reading that does not come after the reading of the first byte,
itself not after the reading of `End`, and a span of at most the largest Duration. -/
theorem C17_total_decomposes (m : Metric) (t7 : Int) (mid : List Op) (t8 : Int)
    (hset : m.dnsStart ≠ 0)
    (hkeep : keepsAnchor (withClientTrace.GotFirstResponseByte m t7) mid)
    (hfit : fits (run (withClientTrace.GotFirstResponseByte m t7) mid).transferStart m.dnsStart ∧
      fits t8 (run (withClientTrace.GotFirstResponseByte m t7) mid).transferStart ∧
      fits t8 m.dnsStart) :
    ((firstByteToEnd m t7 mid t8).Total
      = (firstByteToEnd m t7 mid t8).StartTransfer
        + (firstByteToEnd m t7 mid t8).ContentTransfer ∧
      (firstByteToEnd m t7 mid t8).Total = t8 - m.dnsStart ∧
      (firstByteToEnd m t7 mid t8).dnsStart = m.dnsStart) ∧
    (∀ t0 t1 t2 t3 t4 t5 t6 : Int, t0 ≠ 0 → t0 ≤ t7 → t7 ≤ t8 → t8 - t0 ≤ maxDuration →
      (tlsRun t0 t1 t2 t3 t4 t5 t6 t7 t8).Total
        = (tlsRun t0 t1 t2 t3 t4 t5 t6 t7 t8).StartTransfer
          + (tlsRun t0 t1 t2 t3 t4 t5 t6 t7 t8).ContentTransfer) ∧
    (∀ t0 t1 t2 t3 t6 : Int, t0 ≠ 0 → t0 ≤ t7 → t7 ≤ t8 → t8 - t0 ≤ maxDuration →
      (plainRun t0 t1 t2 t3 t6 t7 t8).Total
        = (plainRun t0 t1 t2 t3 t6 t7 t8).StartTransfer
          + (plainRun t0 t1 t2 t3 t6 t7 t8).ContentTransfer) ∧
    (∀ t6 : Int, t6 ≠ 0 → t6 ≤ t7 → t7 ≤ t8 → t8 - t6 ≤ maxDuration →
      (reusedRun t6 t7 t8).Total
        = (reusedRun t6 t7 t8).StartTransfer + (reusedRun t6 t7 t8).ContentTransfer) := by
  have hmin : minDuration ≤ -1 := by decide
  refine ⟨?_, ?_, ?_, ?_⟩
  · have hk := keepsAnchor_run mid (withClientTrace.GotFirstResponseByte m t7) hkeep rfl
    have hd : (run (withClientTrace.GotFirstResponseByte m t7) mid).dnsStart = m.dnsStart :=
      hk.1
    have hst := hk.2
    simp only [firstByteToEnd]
    generalize run (withClientTrace.GotFirstResponseByte m t7) mid = s at hd hst hfit
    have hne : s.dnsStart ≠ 0 := by rw [hd]; exact hset
    simp only [Metric.End, Time.IsZero, hne, decide_False, Bool.false_eq_true, if_false, hst]
    rw [hd, Time.Sub_exact hfit.1.1 hfit.1.2, Time.Sub_exact hfit.2.1.1 hfit.2.1.2,
      Time.Sub_exact hfit.2.2.1 hfit.2.2.2]
    refine ⟨by omega, rfl, rfl⟩
  · intro t0 t1 t2 t3 t4 t5 t6 h0 h1 h2 h3
    rw [tlsRun_eq t0 t1 t2 t3 t4 t5 t6 t7 t8 h0]
    dsimp only
    rw [Time.Sub_exact (by omega) (by omega), Time.Sub_exact (by omega) (by omega),
      Time.Sub_exact (by omega) (by omega)]
    omega
  · intro t0 t1 t2 t3 t6 h0 h1 h2 h3
    rw [plainRun_eq t0 t1 t2 t3 t6 t7 t8 h0]
    dsimp only
    rw [Time.Sub_exact (by omega) (by omega), Time.Sub_exact (by omega) (by omega),
      Time.Sub_exact (by omega) (by omega)]
    omega
  · intro t6 h0 h1 h2 h3
    rw [reusedRun_eq t6 t7 t8 h0]
    dsimp only
    rw [Time.Sub_exact (by omega) (by omega), Time.Sub_exact (by omega) (by omega),
      Time.Sub_exact (by omega) (by omega)]
    omega

/-- Witness of C17: a Metric anchored at 1 ns, the first byte at 5 ns, `GotConn` and nothing
that rewrites `dnsStart`, `End` at 9 ns; and the three sequences on readings from 1 ns. -/
theorem C17_total_decomposes_witness :
    (firstByteToEnd { dnsStart := 1 } 5 [.hook (.GotConn false)] 9).Total
      = (firstByteToEnd { dnsStart := 1 } 5 [.hook (.GotConn false)] 9).StartTransfer
        + (firstByteToEnd { dnsStart := 1 } 5 [.hook (.GotConn false)] 9).ContentTransfer ∧
    (tlsRun 1 1 2 2 3 3 4 5 9).Total
      = (tlsRun 1 1 2 2 3 3 4 5 9).StartTransfer + (tlsRun 1 1 2 2 3 3 4 5 9).ContentTransfer ∧
    (plainRun 1 1 2 2 4 5 9).Total
      = (plainRun 1 1 2 2 4 5 9).StartTransfer + (plainRun 1 1 2 2 4 5 9).ContentTransfer ∧
    (reusedRun 4 5 9).Total
      = (reusedRun 4 5 9).StartTransfer + (reusedRun 4 5 9).ContentTransfer :=
  ⟨(C17_total_decomposes { dnsStart := 1 } 5 [.hook (.GotConn false)] 9 (by decide)
      ⟨rfl, trivial⟩
      ⟨⟨by decide, by decide⟩, ⟨by decide, by decide⟩, ⟨by decide, by decide⟩⟩).1.1,
   (C17_total_decomposes { dnsStart := 1 } 5 [.hook (.GotConn false)] 9 (by decide)
      ⟨rfl, trivial⟩
      ⟨⟨by decide, by decide⟩, ⟨by decide, by decide⟩, ⟨by decide, by decide⟩⟩).2.1
      1 1 2 2 3 3 4 (by decide) (by decide) (by decide) (by decide),
   (C17_total_decomposes { dnsStart := 1 } 5 [.hook (.GotConn false)] 9 (by decide)
      ⟨rfl, trivial⟩
      ⟨⟨by decide, by decide⟩, ⟨by decide, by decide⟩, ⟨by decide, by decide⟩⟩).2.2.1
      1 1 2 2 4 (by decide) (by decide) (by decide) (by decide),
   (C17_total_decomposes { dnsStart := 1 } 5 [.hook (.GotConn false)] 9 (by decide)
      ⟨rfl, trivial⟩
      ⟨⟨by decide, by decide⟩, ⟨by decide, by decide⟩, ⟨by decide, by decide⟩⟩).2.2.2
      4 (by decide) (by decide) (by decide) (by decide)⟩

/-! ## C18: the order of the checkpoints -/

theorem Time.Sub_mono {a b : Int} (u : Int) (h : a ≤ b) : Time.Sub a u ≤ Time.Sub b u := by
  unfold Time.Sub maxDuration minDuration
  split_ifs <;> omega

/-- C18: on a fresh Metric, each of the three complete sequences in normal order (TLS,
plaintext, reused connection), with non-decreasing readings the first of which is a set
instant as a reading of the clock is, ends with
`0 <= NameLookup <= Connect <= Pretransfer <= StartTransfer <= Total` and with none of the
five phase durations negative. -/
theorem C18_checkpoints_ordered (t0 t1 t2 t3 t4 t5 t6 t7 t8 : Int) :
    (t0 ≠ 0 → t0 ≤ t1 ∧ t1 ≤ t2 ∧ t2 ≤ t3 ∧ t3 ≤ t4 ∧ t4 ≤ t5 ∧ t5 ≤ t6 ∧ t6 ≤ t7 ∧ t7 ≤ t8 →
      (tlsRun t0 t1 t2 t3 t4 t5 t6 t7 t8).checkpointsOrdered) ∧
    (t0 ≠ 0 → t0 ≤ t1 ∧ t1 ≤ t2 ∧ t2 ≤ t3 ∧ t3 ≤ t6 ∧ t6 ≤ t7 ∧ t7 ≤ t8 →
      (plainRun t0 t1 t2 t3 t6 t7 t8).checkpointsOrdered) ∧
    (t6 ≠ 0 → t6 ≤ t7 ∧ t7 ≤ t8 → (reusedRun t6 t7 t8).checkpointsOrdered) := by
  refine ⟨fun h0 h => ?_, fun h0 h => ?_, fun h6 h => ?_⟩
  · rw [tlsRun_eq t0 t1 t2 t3 t4 t5 t6 t7 t8 h0]
    exact ⟨⟨Time.Sub_nonneg (by omega), Time.Sub_mono t0 (by omega), Time.Sub_mono t0 (by omega),
      Time.Sub_mono t0 (by omega), Time.Sub_mono t0 (by omega)⟩,
      ⟨Time.Sub_nonneg (by omega), Time.Sub_nonneg (by omega), Time.Sub_nonneg (by omega),
      Time.Sub_nonneg (by omega), Time.Sub_nonneg (by omega)⟩⟩
  · rw [plainRun_eq t0 t1 t2 t3 t6 t7 t8 h0]
    exact ⟨⟨Time.Sub_nonneg (by omega), Time.Sub_mono t0 (by omega), le_refl _,
      Time.Sub_mono t0 (by omega), Time.Sub_mono t0 (by omega)⟩,
      ⟨Time.Sub_nonneg (by omega), Time.Sub_nonneg (by omega), le_refl _,
      Time.Sub_nonneg (by omega), Time.Sub_nonneg (by omega)⟩⟩
  · rw [reusedRun_eq t6 t7 t8 h6]
    exact ⟨⟨le_refl _, le_refl _, le_refl _, Time.Sub_nonneg (by omega),
      Time.Sub_mono t6 (by omega)⟩,
      ⟨le_refl _, le_refl _, le_refl _, Time.Sub_nonneg (by omega),
      Time.Sub_nonneg (by omega)⟩⟩

/-- Witness of C18: the three sequences on non-decreasing readings from the instant 1 ns, with
equal readings where one phase ends as the next begins. -/
theorem C18_checkpoints_ordered_witness :
    (tlsRun 1 2 2 3 3 4 4 5 6).checkpointsOrdered ∧
    (plainRun 1 2 2 3 4 5 6).checkpointsOrdered ∧
    (reusedRun 4 5 6).checkpointsOrdered :=
  ⟨(C18_checkpoints_ordered 1 2 2 3 3 4 4 5 6).1 (by decide) (by decide),
   (C18_checkpoints_ordered 1 2 2 3 3 4 4 5 6).2.1 (by decide) (by decide),
   (C18_checkpoints_ordered 1 2 2 3 3 4 4 5 6).2.2 (by decide) (by decide)⟩

/-! ## C19: the dispatch on the verb -/

/-- The compact line holds no newline, whatever the order in which the map is visited. -/
theorem compact_no_newline (m : Metric) (range : List (String × Int) → List (String × Int))
    (hrange : IsRange range) : '\n' ∉ (m.compact range).data := by
  intro hc
  rcases intercalate_chars _ _ _ hc with h | ⟨s, hs, h⟩
  · exact absurd h (by decide)
  · obtain ⟨e, he, rfl⟩ := List.mem_map.1 hs
    have hmem : e ∈ m.durations := (hrange m.durations).mem_iff.1 he
    simp only [String.data_append, List.mem_append] at h
    rcases h with ((h | h) | h) | h
    · exact ((durations_entries m).2.2 e hmem).2 h
    · exact absurd h (by decide)
    · exact fmtD_no_newline _ h
    · exact absurd h (by decide)

/-- The verbose report ends with a newline. -/
theorem verbose_has_newline (m : Metric) (range : List (String × Int) → List (String × Int)) :
    ∃ buf, m.Format true 'v' range = [buf] ∧ '\n' ∈ buf.data := by
  refine ⟨_, rfl, ?_⟩
  rw [String.data_append, String.data_append]
  exact List.mem_append_right _ (List.mem_append_right _ (by decide))

/-- C19: `Format` writes the compact line for the verb `v` without the flag `+`, for the verb
`s` and for the verb `q`, with or without the flag; it writes nothing for any other verb; and
only the verb `v` with the flag `+` gives the verbose report. -/
theorem C19_verb_dispatch (m : Metric) (range : List (String × Int) → List (String × Int)) :
    m.Format false 'v' range = [m.compact range] ∧
    (∀ plus, m.Format plus 's' range = [m.compact range]) ∧
    (∀ plus, m.Format plus 'q' range = [m.compact range]) ∧
    (∀ plus verb, verb ≠ 'v' → verb ≠ 's' → verb ≠ 'q' → m.Format plus verb range = []) ∧
    (IsRange range → ∀ plus verb,
      m.Format plus verb range = m.Format true 'v' range → plus = true ∧ verb = 'v') := by
  refine ⟨?_, fun plus => ?_, fun plus => ?_, fun plus verb hv hs hq => ?_,
    fun hrange plus verb heq => ?_⟩
  · simp [Metric.Format]
  · simp [Metric.Format]
  · simp [Metric.Format]
  · simp [Metric.Format, hv, hs, hq]
  · obtain ⟨buf, hbuf, hnl⟩ := verbose_has_newline m range
    have hno := compact_no_newline m range hrange
    rw [hbuf] at heq
    by_cases hv : verb = 'v'
    · subst hv
      cases plus with
      | true => exact ⟨rfl, rfl⟩
      | false =>
        have h1 : m.Format false 'v' range = [m.compact range] := by simp [Metric.Format]
        rw [h1] at heq
        have h2 : m.compact range = buf := by simpa using heq
        exact absurd (h2 ▸ hnl) hno
    · by_cases hsq : verb = 's' ∨ verb = 'q'
      · have h1 : m.Format plus verb range = [m.compact range] := by
          simp [Metric.Format, hv, hsq]
        rw [h1] at heq
        have h2 : m.compact range = buf := by simpa using heq
        exact absurd (h2 ▸ hnl) hno
      · have h1 : m.Format plus verb range = [] := by
          simp [Metric.Format, hv, hsq]
        rw [h1] at heq
        exact absurd heq (by simp)

/-- Witness of C19: the verb `d`, which `Format` does not handle, and a `range` in the order of
the source, for which the compact line of the default verb is not the verbose report. -/
theorem C19_verb_dispatch_witness :
    testMetric.Format true 'd' id = [] ∧
    (testMetric.Format false 'v' id = testMetric.Format true 'v' id → false = true ∧ 'v' = 'v') :=
  ⟨(C19_verb_dispatch testMetric id).2.2.2.1 true 'd' (by decide) (by decide) (by decide),
   (C19_verb_dispatch testMetric id).2.2.2.2 (fun d => List.Perm.refl d) false 'v'⟩

end HttpMetrics
